import Mathlib

/-!
Verification of the stellarmesh DAGMC builder (stellarmesh.py).

This file gives a shallow embedding of the parts of stellarmesh.py that the
checked claims are about:

- the MOAB core (pymoab.core.Core) is modelled as a pure state `MoabCore`:
  meshset handles are natural numbers handed out by an increasing counter
  (real MOAB handles are opaque nonzero integers), tag data is modelled as
  association lists with last-write-wins semantics, and the parent/child and
  set-membership relations are lists of pairs;
- the gmsh mesh consumed by `MOABModel.make_from_mesh` is modelled as a record
  `GmshMesh` of the four queries the builder performs on it: the ordered list
  of 3D entity tags, the downward adjacency of each 3D tag, the physical
  groups of each 3D tag and the name of each physical group;
- the STL export/re-import of a surface's facets (lines 489-496) is an I/O
  round trip through a temporary file; it is modelled by appending one fresh
  facet-batch entity to the core, placing it in the surface meshset, and
  recording the event in a trace `stlImports` of (surface tag, volume index)
  pairs;
- the gmsh process-wide session (gmsh.initialize/gmsh.finalize) is modelled by
  a flag in `GmshSession`; Python `with` blocks are lowered to their defined
  semantics: enter, run the body, and run exit unconditionally (also when the
  body fails).

Python exceptions are modelled with `Except PyError`; float literals (the
faceting tolerance 1e-3) are modelled as rationals, no float arithmetic is
performed on them.
-/

/-- Python exceptions raised by the embedded code. -/
inductive PyError where
  | valueError (msg : String)
  | typeError (msg : String)
deriving Repr, DecidableEq

/-- A CAD solid as seen by the embedded code: only its gmsh import dimension
and tag are ever inspected (mesh_geometry lines 177-183). -/
structure Solid where
  dim : Nat
  tag : Nat
deriving Repr, DecidableEq

/-- Geometry, representing an ordered list of solids (stellarmesh.py lines
18-35). -/
structure Geometry where
  solids : List Solid
  material_names : List String
deriving Repr, DecidableEq

/-- Geometry.__init__ (lines 24-35): raises ValueError when the length of
material_names does not match the length of solids, else stores both. -/
def Geometry.init (solids : List Solid) (material_names : List String) :
    Except PyError Geometry :=
  if material_names.length ≠ solids.length then
    .error (.valueError "Length of material_names must match length of solids.")
  else
    .ok { solids := solids, material_names := material_names }

/-- Geometry.import_step (lines 39-61): the solids parsed from the step file
are passed in as a list; the length check of line 56 is followed by the
constructor call of line 61 (which checks again). -/
def Geometry.import_step (file_solids : List Solid) (material_names : List String) :
    Except PyError Geometry :=
  if material_names.length ≠ file_solids.length then
    .error (.valueError "Length of material_names must match number of solids in file.")
  else
    Geometry.init file_solids material_names

/-- Geometry.import_brep (lines 63-85): identical shape to import_step. -/
def Geometry.import_brep (file_solids : List Solid) (material_names : List String) :
    Except PyError Geometry :=
  if material_names.length ≠ file_solids.length then
    .error (.valueError "Length of material_names must match number of solids in file.")
  else
    Geometry.init file_solids material_names

/-- The gmsh mesh data that MOABModel.make_from_mesh reads: the ordered 3D
entity tags (gmsh.model.get_entities(3), line 426), per-volume adjacent
surface tags (gmsh.model.get_adjacencies(3, tag)[1], lines 465-466),
per-volume physical groups (line 439) and physical-group names (line 447). -/
structure GmshMesh where
  volumes : List Nat
  adjacency : Nat → List Nat
  physicalGroups : Nat → List Nat
  physicalName : Nat → String

/-- First-match lookup in an association list (Python dict read). -/
def lookup {κ α : Type} [BEq κ] (l : List (κ × α)) (k : κ) : Option α :=
  match l.find? (fun p => p.1 == k) with
  | some p => some p.2
  | none => none

/-- Overwrite the value stored under an existing key (Python mutation of the
object held in a dict). -/
def updateLookup {κ α : Type} [BEq κ] (l : List (κ × α)) (k : κ) (v : α) :
    List (κ × α) :=
  l.map (fun p => if p.1 == k then (k, v) else p)

/-- Tag write: MOAB tag_set_data overwrites the tag value of a handle.
Prepending together with first-match lookup gives last-write-wins. -/
def tagSet {α : Type} (l : List (Nat × α)) (h : Nat) (v : α) : List (Nat × α) :=
  (h, v) :: l

/-- The MOAB core state (pymoab.core.Core). Handles are handed out by
nextHandle starting at 1 (0 is the root set / the unset sentinel and is never
allocated); entities lists every created entity in creation order; each tag
of _get_moab_tag_handles gets one association list; parentChild holds
add_parent_child pairs and contents holds add_entity/add_entities
(set, member) pairs. -/
structure MoabCore where
  nextHandle : Nat := 1
  entities : List Nat := []
  globalId : List (Nat × Nat) := []
  geomDimension : List (Nat × Nat) := []
  category : List (Nat × String) := []
  nameData : List (Nat × String) := []
  surfSense : List (Nat × List Nat) := []
  facetingTol : List (Nat × Rat) := []
  parentChild : List (Nat × Nat) := []
  contents : List (Nat × Nat) := []
deriving Repr, DecidableEq

/-- core.create_meshset(): returns a fresh handle. -/
def MoabCore.create_meshset (c : MoabCore) : Nat × MoabCore :=
  (c.nextHandle,
   { c with nextHandle := c.nextHandle + 1, entities := c.entities ++ [c.nextHandle] })

/-- core.tag_set_data(tag_handles["global_id"], h, v). -/
def MoabCore.setGlobalId (c : MoabCore) (h v : Nat) : MoabCore :=
  { c with globalId := tagSet c.globalId h v }

/-- core.tag_set_data(tag_handles["geom_dimension"], h, v). -/
def MoabCore.setGeomDimension (c : MoabCore) (h v : Nat) : MoabCore :=
  { c with geomDimension := tagSet c.geomDimension h v }

/-- core.tag_set_data(tag_handles["category"], h, v). -/
def MoabCore.setCategory (c : MoabCore) (h : Nat) (v : String) : MoabCore :=
  { c with category := tagSet c.category h v }

/-- core.tag_set_data(tag_handles["name"], h, v). -/
def MoabCore.setName (c : MoabCore) (h : Nat) (v : String) : MoabCore :=
  { c with nameData := tagSet c.nameData h v }

/-- core.tag_set_data(tag_handles["surf_sense"], h, v). -/
def MoabCore.setSurfSense (c : MoabCore) (h : Nat) (v : List Nat) : MoabCore :=
  { c with surfSense := tagSet c.surfSense h v }

/-- core.tag_set_data(tag_handles["faceting_tol"], h, v). -/
def MoabCore.setFacetingTol (c : MoabCore) (h : Nat) (v : Rat) : MoabCore :=
  { c with facetingTol := tagSet c.facetingTol h v }

/-- core.add_parent_child(parent, child). -/
def MoabCore.add_parent_child (c : MoabCore) (p ch : Nat) : MoabCore :=
  { c with parentChild := c.parentChild ++ [(p, ch)] }

/-- core.add_entity(set, member). -/
def MoabCore.add_entity (c : MoabCore) (s m : Nat) : MoabCore :=
  { c with contents := c.contents ++ [(s, m)] }

/-- core.add_entities(set, members). -/
def MoabCore.add_entities (c : MoabCore) (s : Nat) (ms : List Nat) : MoabCore :=
  { c with contents := c.contents ++ ms.map (fun m => (s, m)) }

/-- core.load_file(stl_file, target): the facets of the exported surface are
re-imported into the core and placed into the target meshset; modelled as one
fresh facet-batch entity placed into the target set. -/
def MoabCore.load_file_stl (c : MoabCore) (target : Nat) : MoabCore :=
  { c with nextHandle := c.nextHandle + 1,
           entities := c.entities ++ [c.nextHandle],
           contents := c.contents ++ [(target, c.nextHandle)] }

/-- core.get_entities_by_handle(h): handle 0 is the root set holding every
entity of the core; any other handle is a meshset whose contents were added
by add_entity/add_entities/load_file. -/
def MoabCore.get_entities_by_handle (c : MoabCore) (h : Nat) : List Nat :=
  if h == 0 then c.entities
  else (c.contents.filter (fun p => p.1 == h)).map (fun p => p.2)

/-- core.get_parent_meshsets(h). -/
def MoabCore.get_parent_meshsets (c : MoabCore) (h : Nat) : List Nat :=
  (c.parentChild.filter (fun p => p.2 == h)).map (fun p => p.1)

/-- core.get_child_meshsets(h). -/
def MoabCore.get_child_meshsets (c : MoabCore) (h : Nat) : List Nat :=
  (c.parentChild.filter (fun p => p.1 == h)).map (fun p => p.2)

/-- The entities of the core whose category tag currently reads cat; with
cat = "Volume" this is how _get_entities_of_geom_dimension-style queries see
the Volume entities, in creation order. -/
def MoabCore.handlesWithCategory (c : MoabCore) (cat : String) : List Nat :=
  c.entities.filter (fun h => lookup c.category h == some cat)

/-- The Volume entities of the core in creation order (= mesh-supplied
order during a build). -/
def MoabCore.volumeHandles (c : MoabCore) : List Nat :=
  c.handlesWithCategory "Volume"

/-- Internal class for surface sense handling (stellarmesh.py lines 279-293).
A forward or reverse volume of 0 (np.uint64(0)) means unset. -/
structure _Surface where
  handle : Nat
  forward_volume : Nat := 0
  reverse_volume : Nat := 0
deriving Repr, DecidableEq

/-- _Surface.sense_data (lines 287-293): the full MOAB sense pair, both
slots at once. -/
def _Surface.sense_data (s : _Surface) : List Nat :=
  [s.forward_volume, s.reverse_volume]

/-- The mutable state of one make_from_mesh pass: the MOAB core plus the
known_surfaces and known_groups dictionaries of lines 422-423, and the trace
of STL export/re-import events of lines 489-496 as (surface tag, volume
index) pairs. -/
structure BuildState where
  core : MoabCore
  known_surfaces : List (Nat × _Surface) := []
  known_groups : List (Nat × Nat) := []
  stlImports : List (Nat × Nat) := []
deriving Repr, DecidableEq

/-- Lines 468-496: the surface tag has not been seen; create its Surface
meshset, record forward_volume := current volume, write its global_id,
geom_dimension, category and surf_sense tags, export/re-import its facets
(one load_file into the new meshset plus a trace event), then line 509:
add_parent_child(volume, surface). -/
def processSurfaceNew (i H t : Nat) (st : BuildState) : BuildState :=
  let p := st.core.create_meshset
  let surface_set_handle := p.1
  let surface : _Surface := { handle := surface_set_handle, forward_volume := H }
  let c := p.2
  let c := c.setGlobalId surface.handle t
  let c := c.setGeomDimension surface.handle 2
  let c := c.setCategory surface.handle "Surface"
  let c := c.setSurfSense surface.handle surface.sense_data
  let c := c.load_file_stl surface.handle
  let c := c.add_parent_child H surface.handle
  { st with core := c,
            known_surfaces := st.known_surfaces ++ [(t, surface)],
            stlImports := st.stlImports ++ [(t, i)] }

/-- Lines 498-509: the surface tag was seen before; set reverse_volume :=
current volume on the existing record, rewrite the surf_sense tag with the
full pair, then add_parent_child(volume, surface). -/
def processSurfaceOld (H t : Nat) (surface0 : _Surface) (st : BuildState) : BuildState :=
  let surface : _Surface := { surface0 with reverse_volume := H }
  let c := st.core.setSurfSense surface.handle surface.sense_data
  let c := c.add_parent_child H surface.handle
  { st with core := c, known_surfaces := updateLookup st.known_surfaces t surface }

/-- Lines 467-509: one iteration of the for surface_tag loop, branching on
membership in known_surfaces. -/
def processSurface (i H : Nat) (st : BuildState) (t : Nat) : BuildState :=
  match lookup st.known_surfaces t with
  | none => processSurfaceNew i H t st
  | some surface0 => processSurfaceOld H t surface0 st

/-- The for surface_tag in surface_tags loop of line 467. -/
def processSurfaces (i H : Nat) : List Nat → BuildState → BuildState
  | [], st => st
  | t :: ts, st => processSurfaces i H ts (processSurface i H st t)

/-- Lines 428-509: one iteration of the for volume loop: create the volume
meshset and tag it (global_id := i, geom_dimension := 3, category :=
"Volume"); raise ValueError when the volume's physical-group count is not 1;
create or reuse the Group meshset of the physical group (category "Group",
name := the gmsh physical name, global_id := the group id); add the volume
to the group; then process the adjacent surfaces. -/
def processVolume (mesh : GmshMesh) (i volume_tag : Nat) (st : BuildState) :
    Except PyError BuildState :=
  let p := st.core.create_meshset
  let volume_set_handle := p.1
  let global_id := volume_set_handle
  let c := p.2
  let c := c.setGlobalId global_id i
  let c := c.setGeomDimension volume_set_handle 3
  let c := c.setCategory volume_set_handle "Volume"
  let vol_groups := mesh.physicalGroups volume_tag
  if vol_groups.length ≠ 1 then
    .error (.valueError ("Volume with tag " ++ toString volume_tag ++
      " and global_id " ++ toString global_id ++ " belongs to " ++
      toString vol_groups.length ++ " physical groups, should be 1"))
  else
    let vol_group := vol_groups.getD 0 0
    let gp : Nat × MoabCore × List (Nat × Nat) :=
      match lookup st.known_groups vol_group with
      | none =>
        let mat_name := mesh.physicalName vol_group
        let q := c.create_meshset
        let group_set := q.1
        let c2 := q.2
        let c2 := c2.setCategory group_set "Group"
        let c2 := c2.setName group_set mat_name
        let c2 := c2.setGlobalId group_set vol_group
        (group_set, c2, st.known_groups ++ [(vol_group, group_set)])
      | some group_set => (group_set, c, st.known_groups)
    let group_set := gp.1
    let c := gp.2.1.add_entity group_set volume_set_handle
    let st1 : BuildState := { st with core := c, known_groups := gp.2.2 }
    let surface_tags := mesh.adjacency volume_tag
    .ok (processSurfaces i volume_set_handle surface_tags st1)

/-- The enumerate(volume_tags) loop of line 428. -/
def processVolumes (mesh : GmshMesh) : Nat → List Nat → BuildState → Except PyError BuildState
  | _, [], st => .ok st
  | i, v :: vs, st =>
    match processVolume mesh i v st with
    | .error e => .error e
    | .ok st' => processVolumes mesh (i + 1) vs st'

/-- Lines 511-518: gather every entity of the core, create the file-level
meshset, tag it faceting_tol := 1e-3 (a fixed constant) and add the gathered
collection to it. -/
def finalizeModel (st : BuildState) : BuildState :=
  let all_entities := st.core.get_entities_by_handle 0
  let p := st.core.create_meshset
  let file_set := p.1
  let c := p.2
  let c := c.setFacetingTol file_set ((1 : Rat) / 1000)
  let c := c.add_entities file_set all_entities
  { st with core := c }

/-- The fresh build state of lines 418-423. -/
def initialBuildState : BuildState := { core := {} }

/-- MOABModel.make_from_mesh (lines 407-520) with the full internal state
exposed: run the volume loop then finalize. -/
def make_from_mesh_state (mesh : GmshMesh) : Except PyError BuildState :=
  (processVolumes mesh 0 mesh.volumes initialBuildState).map finalizeModel

/-- MOAB Model (lines 296-308): wraps the core. -/
structure MOABModel where
  core : MoabCore
deriving Repr, DecidableEq

/-- MOABModel.make_from_mesh as called by users: only the core survives in
the returned model (the known_surfaces/known_groups dictionaries are local
to the pass). -/
def make_from_mesh (mesh : GmshMesh) : Except PyError MOABModel :=
  (make_from_mesh_state mesh).map (fun st => { core := st.core })

/-- MOABSurface.adjacent_volumes (lines 251-262): the parent meshsets of the
surface handle. -/
def MOABSurface.adjacent_volumes (c : MoabCore) (h : Nat) : List Nat :=
  c.get_parent_meshsets h

/-- MOABVolume.adjacent_surfaces (lines 265-276): the child meshsets of the
volume handle. -/
def MOABVolume.adjacent_surfaces (c : MoabCore) (h : Nat) : List Nat :=
  c.get_child_meshsets h

/-- The gmsh process-wide session: gmsh.is_initialized/initialize/finalize,
plus the fltk subsystem used by render. -/
structure GmshSession where
  initialized : Bool
  fltkInitialized : Bool := false
deriving Repr, DecidableEq

/-- Mesh.__enter__ (lines 123-133): initialize gmsh only when it is not
already initialized. -/
def gmshEnter (s : GmshSession) : GmshSession :=
  if s.initialized then s else { s with initialized := true }

/-- Mesh.__exit__ (lines 135-137): gmsh.finalize(), unconditionally. -/
def gmshFinalize (s : GmshSession) : GmshSession :=
  { s with initialized := false }

/-- The with mesh: block of make_from_mesh (line 425): enter, run the body
(which may fail), exit on every path. The body only reads the mesh, so it
cannot change the session. -/
def make_from_mesh_session (mesh : GmshMesh) (s : GmshSession) :
    Except PyError MOABModel × GmshSession :=
  let s1 := gmshEnter s
  (make_from_mesh mesh, gmshFinalize s1)

/-- The material_solid_map loop of Mesh.mesh_geometry (lines 175-187): each
solid is imported, TypeError is raised when a non-solid (top dimension not
3) appears, and the solid tag is appended under its material key. -/
def buildMaterialSolidMap :
    List (Solid × String) → List (String × List Nat) →
      Except PyError (List (String × List Nat))
  | [], acc => .ok acc
  | (s, m) :: rest, acc =>
    if s.dim ≠ 3 then .error (.typeError "Importing non-solid geometry.")
    else
      let acc' :=
        match lookup acc m with
        | none => acc ++ [(m, [s.tag])]
        | some tags => updateLookup acc m (tags ++ [s.tag])
      buildMaterialSolidMap rest acc'

/-- The physical groups added by mesh_geometry (lines 191-192): one per
material, named "mat:" followed by the material name. -/
def physical_group_names (msmap : List (String × List Nat)) : List String :=
  msmap.map (fun p => "mat:" ++ p.1)

/-- Mesh.mesh_geometry (lines 155-199) seen through the session: the with
cls() as mesh: block wraps a body that may raise TypeError; the session is
finalized on both paths. The value returned is the material map from which
the physical groups are produced. -/
def mesh_geometry_session (geometry : Geometry) (s : GmshSession) :
    Except PyError (List (String × List Nat)) × GmshSession :=
  let s1 := gmshEnter s
  (buildMaterialSolidMap (geometry.solids.zip geometry.material_names) [],
   gmshFinalize s1)

/-- Mesh.write (lines 143-153): with self: around a gmsh.write call that
does not fail. -/
def write_session (s : GmshSession) : GmshSession :=
  gmshFinalize (gmshEnter s)

/-- Mesh.render (lines 201-239): with self: around option setting and a
try gmsh.fltk.initialize; gmsh.write finally gmsh.fltk.finalize block. -/
def render_session (s : GmshSession) : GmshSession :=
  let s1 := gmshEnter s
  let s2 := { s1 with fltkInitialized := true }
  let s3 := { s2 with fltkInitialized := false }
  gmshFinalize s3

/-- The positions (0-based, in mesh-supplied order) among the first k volumes
of the mesh whose adjacency lists contain surface tag t. -/
def occurrencesIn (mesh : GmshMesh) (k t : Nat) : List Nat :=
  (List.range k).filter (fun i => decide (t ∈ mesh.adjacency (mesh.volumes.getD i 0)))

/-- The positions among all volumes of the mesh whose adjacency lists contain
surface tag t. -/
def surfaceOccurrences (mesh : GmshMesh) (t : Nat) : List Nat :=
  occurrencesIn mesh mesh.volumes.length t

/-- Well-formedness of the mesh adjacency data: gmsh.model.get_adjacencies
returns each adjacent surface tag once (a set of tags). -/
def MeshWF (mesh : GmshMesh) : Prop :=
  ∀ v, (mesh.adjacency v).Nodup

/-! ### Association-list lemmas -/

lemma lookup_nil {κ α : Type} [BEq κ] (k : κ) : lookup ([] : List (κ × α)) k = none := rfl

lemma lookup_cons_self {κ α : Type} [BEq κ] [LawfulBEq κ] (l : List (κ × α)) (k : κ) (v : α) :
    lookup ((k, v) :: l) k = some v := by
  simp [lookup, List.find?_cons]

lemma lookup_cons_ne {κ α : Type} [BEq κ] [LawfulBEq κ] (l : List (κ × α)) (k k' : κ) (v : α)
    (hne : k' ≠ k) : lookup ((k, v) :: l) k' = lookup l k' := by
  have hb : (k == k') = false := beq_eq_false_iff_ne.mpr (fun h => hne h.symm)
  simp [lookup, List.find?_cons, hb]

lemma lookup_tagSet_self {α : Type} (l : List (Nat × α)) (h : Nat) (v : α) :
    lookup (tagSet l h v) h = some v := lookup_cons_self l h v

lemma lookup_tagSet_ne {α : Type} (l : List (Nat × α)) (h h' : Nat) (v : α)
    (hne : h' ≠ h) : lookup (tagSet l h v) h' = lookup l h' := lookup_cons_ne l h h' v hne

lemma lookup_append_or {κ α : Type} [BEq κ] (l₁ l₂ : List (κ × α)) (k : κ) :
    lookup (l₁ ++ l₂) k = (lookup l₁ k).or (lookup l₂ k) := by
  unfold lookup
  rw [List.find?_append]
  cases List.find? (fun p => p.1 == k) l₁ <;> simp

lemma lookup_concat_none {κ α : Type} [BEq κ] {l : List (κ × α)} {k : κ}
    (h : lookup l k = none) (l' : List (κ × α)) : lookup (l ++ l') k = lookup l' k := by
  rw [lookup_append_or, h, Option.none_or]

lemma lookup_concat_some {κ α : Type} [BEq κ] {l : List (κ × α)} {k : κ} {r : α}
    (h : lookup l k = some r) (l' : List (κ × α)) : lookup (l ++ l') k = some r := by
  rw [lookup_append_or, h]
  rfl

lemma lookup_singleton_self {κ α : Type} [BEq κ] [LawfulBEq κ] (k : κ) (v : α) :
    lookup [(k, v)] k = some v := lookup_cons_self [] k v

lemma lookup_singleton_ne {κ α : Type} [BEq κ] [LawfulBEq κ] {k k' : κ} (v : α)
    (hne : k' ≠ k) : lookup ([(k, v)] : List (κ × α)) k' = none :=
  lookup_cons_ne [] k k' v hne

lemma lookup_updateLookup_ne {κ α : Type} [BEq κ] [LawfulBEq κ] (l : List (κ × α))
    (k k' : κ) (v : α) (hne : k' ≠ k) :
    lookup (updateLookup l k v) k' = lookup l k' := by
  induction l with
  | nil => rfl
  | cons p l ih =>
    rcases p with ⟨a, b⟩
    simp only [updateLookup, List.map_cons]
    by_cases hp : a = k
    · rw [if_pos (by simp [hp])]
      rw [lookup_cons_ne _ k k' v hne]
      rw [lookup_cons_ne _ a k' b (fun h => hne (h.trans hp))]
      exact ih
    · rw [if_neg (by simp [hp])]
      by_cases hq : a = k'
      · subst hq
        rw [lookup_cons_self, lookup_cons_self]
      · rw [lookup_cons_ne _ a k' b (fun h => hq h.symm)]
        rw [lookup_cons_ne _ a k' b (fun h => hq h.symm)]
        exact ih

lemma lookup_updateLookup_self {κ α : Type} [BEq κ] [LawfulBEq κ] (l : List (κ × α))
    (k : κ) (v : α) {r : α} (hsome : lookup l k = some r) :
    lookup (updateLookup l k v) k = some v := by
  induction l with
  | nil => simp [lookup] at hsome
  | cons p l ih =>
    rcases p with ⟨a, b⟩
    simp only [updateLookup, List.map_cons] at *
    by_cases hp : a = k
    · rw [if_pos (by simp [hp])]
      exact lookup_cons_self _ k v
    · have hne : k ≠ a := fun h => hp h.symm
      rw [lookup_cons_ne _ a k b hne] at hsome
      rw [if_neg (by simp [hp])]
      rw [lookup_cons_ne _ a k b hne]
      exact ih hsome

lemma lookup_eq_none_of_keys_lt {α : Type} {l : List (Nat × α)} {n h : Nat}
    (hk : ∀ p ∈ l, p.1 < n) (hn : n ≤ h) : lookup l h = none := by
  induction l with
  | nil => rfl
  | cons p l ih =>
    have hp : p.1 < n := hk p (List.mem_cons_self p l)
    have hb : p.1 ≠ h := Nat.ne_of_lt (lt_of_lt_of_le hp hn)
    rcases p with ⟨a, b⟩
    rw [lookup_cons_ne _ a h b (fun hcontra => hb hcontra.symm)]
    exact ih (fun q hq => hk q (List.mem_cons_of_mem _ hq))

/-! ### Occurrence-list lemmas -/

lemma occurrencesIn_zero (mesh : GmshMesh) (t : Nat) : occurrencesIn mesh 0 t = [] := rfl

lemma occurrencesIn_succ (mesh : GmshMesh) (k t : Nat) :
    occurrencesIn mesh (k + 1) t =
      occurrencesIn mesh k t ++
        (if t ∈ mesh.adjacency (mesh.volumes.getD k 0) then [k] else []) := by
  unfold occurrencesIn
  rw [List.range_succ, List.filter_append]
  congr 1
  by_cases h : t ∈ mesh.adjacency (mesh.volumes.getD k 0)
  · rw [if_pos h]
    simp only [List.filter, decide_eq_true h]
  · rw [if_neg h]
    simp only [List.filter, decide_eq_false h]

lemma mem_occurrencesIn_lt {mesh : GmshMesh} {k t i : Nat}
    (hi : i ∈ occurrencesIn mesh k t) : i < k := by
  unfold occurrencesIn at hi
  exact List.mem_range.mp (List.mem_of_mem_filter hi)

lemma headD_append_of_ne_nil {α : Type} (l l' : List α) (d : α) (h : l ≠ []) :
    (l ++ l').headD d = l.headD d := by
  cases l with
  | nil => exact absurd rfl h
  | cons a l => rfl

lemma length_two_getLastD {l : List Nat} (h : l.length = 2) (d : Nat) :
    l.getLastD d = l.getD 1 d := by
  rcases l with _ | ⟨a, _ | ⟨b, _ | ⟨c, l⟩⟩⟩ <;> simp_all

/-! ### Projection lemmas for the two surface-processing branches -/

lemma pSNew_next (i H t : Nat) (st : BuildState) :
    (processSurfaceNew i H t st).core.nextHandle = st.core.nextHandle + 2 := rfl

lemma pSNew_known (i H t : Nat) (st : BuildState) :
    (processSurfaceNew i H t st).known_surfaces =
      st.known_surfaces ++ [(t, ⟨st.core.nextHandle, H, 0⟩)] := rfl

lemma pSNew_sense (i H t : Nat) (st : BuildState) :
    (processSurfaceNew i H t st).core.surfSense =
      tagSet st.core.surfSense st.core.nextHandle [H, 0] := rfl

lemma pSNew_category (i H t : Nat) (st : BuildState) :
    (processSurfaceNew i H t st).core.category =
      tagSet st.core.category st.core.nextHandle "Surface" := rfl

lemma pSNew_globalId (i H t : Nat) (st : BuildState) :
    (processSurfaceNew i H t st).core.globalId =
      tagSet st.core.globalId st.core.nextHandle t := rfl

lemma pSNew_geomDimension (i H t : Nat) (st : BuildState) :
    (processSurfaceNew i H t st).core.geomDimension =
      tagSet st.core.geomDimension st.core.nextHandle 2 := rfl

lemma pSNew_nameData (i H t : Nat) (st : BuildState) :
    (processSurfaceNew i H t st).core.nameData = st.core.nameData := rfl

lemma pSNew_facetingTol (i H t : Nat) (st : BuildState) :
    (processSurfaceNew i H t st).core.facetingTol = st.core.facetingTol := rfl

lemma pSNew_entities (i H t : Nat) (st : BuildState) :
    (processSurfaceNew i H t st).core.entities =
      st.core.entities ++ [st.core.nextHandle] ++ [st.core.nextHandle + 1] := rfl

lemma pSNew_contents (i H t : Nat) (st : BuildState) :
    (processSurfaceNew i H t st).core.contents =
      st.core.contents ++ [(st.core.nextHandle, st.core.nextHandle + 1)] := rfl

lemma pSNew_groups (i H t : Nat) (st : BuildState) :
    (processSurfaceNew i H t st).known_groups = st.known_groups := rfl

lemma pSNew_stl (i H t : Nat) (st : BuildState) :
    (processSurfaceNew i H t st).stlImports = st.stlImports ++ [(t, i)] := rfl

lemma pSOld_next (H t : Nat) (r : _Surface) (st : BuildState) :
    (processSurfaceOld H t r st).core.nextHandle = st.core.nextHandle := rfl

lemma pSOld_known (H t : Nat) (r : _Surface) (st : BuildState) :
    (processSurfaceOld H t r st).known_surfaces =
      updateLookup st.known_surfaces t ⟨r.handle, r.forward_volume, H⟩ := rfl

lemma pSOld_sense (H t : Nat) (r : _Surface) (st : BuildState) :
    (processSurfaceOld H t r st).core.surfSense =
      tagSet st.core.surfSense r.handle [r.forward_volume, H] := rfl

lemma pSOld_category (H t : Nat) (r : _Surface) (st : BuildState) :
    (processSurfaceOld H t r st).core.category = st.core.category := rfl

lemma pSOld_globalId (H t : Nat) (r : _Surface) (st : BuildState) :
    (processSurfaceOld H t r st).core.globalId = st.core.globalId := rfl

lemma pSOld_geomDimension (H t : Nat) (r : _Surface) (st : BuildState) :
    (processSurfaceOld H t r st).core.geomDimension = st.core.geomDimension := rfl

lemma pSOld_nameData (H t : Nat) (r : _Surface) (st : BuildState) :
    (processSurfaceOld H t r st).core.nameData = st.core.nameData := rfl

lemma pSOld_facetingTol (H t : Nat) (r : _Surface) (st : BuildState) :
    (processSurfaceOld H t r st).core.facetingTol = st.core.facetingTol := rfl

lemma pSOld_entities (H t : Nat) (r : _Surface) (st : BuildState) :
    (processSurfaceOld H t r st).core.entities = st.core.entities := rfl

lemma pSOld_contents (H t : Nat) (r : _Surface) (st : BuildState) :
    (processSurfaceOld H t r st).core.contents = st.core.contents := rfl

lemma pSOld_groups (H t : Nat) (r : _Surface) (st : BuildState) :
    (processSurfaceOld H t r st).known_groups = st.known_groups := rfl

lemma pSOld_stl (H t : Nat) (r : _Surface) (st : BuildState) :
    (processSurfaceOld H t r st).stlImports = st.stlImports := rfl

lemma processSurface_of_none {st : BuildState} {t : Nat} (i H : Nat)
    (hl : lookup st.known_surfaces t = none) :
    processSurface i H st t = processSurfaceNew i H t st := by
  unfold processSurface
  rw [hl]

lemma processSurface_of_some {st : BuildState} {t : Nat} {r : _Surface} (i H : Nat)
    (hl : lookup st.known_surfaces t = some r) :
    processSurface i H st t = processSurfaceOld H t r st := by
  unfold processSurface
  rw [hl]

lemma processSurfaces_nil (i H : Nat) (st : BuildState) :
    processSurfaces i H [] st = st := rfl

lemma processSurfaces_cons (i H t : Nat) (ts : List Nat) (st : BuildState) :
    processSurfaces i H (t :: ts) st = processSurfaces i H ts (processSurface i H st t) := rfl

/-! ### Structural preservation through the inner surface loop -/

lemma handlesWithCategory_pSOld (H t : Nat) (r : _Surface) (st : BuildState) (cat : String) :
    (processSurfaceOld H t r st).core.handlesWithCategory cat =
      st.core.handlesWithCategory cat := rfl

lemma handlesWithCategory_pSNew (i H t : Nat) (st : BuildState)
    (hent : ∀ h ∈ st.core.entities, h < st.core.nextHandle)
    (hcat : ∀ p ∈ st.core.category, p.1 < st.core.nextHandle)
    (cat : String) (hc : cat ≠ "Surface") :
    (processSurfaceNew i H t st).core.handlesWithCategory cat =
      st.core.handlesWithCategory cat := by
  unfold MoabCore.handlesWithCategory
  rw [pSNew_entities, pSNew_category, List.filter_append, List.filter_append]
  have hb : ((some "Surface" : Option String) == some cat) = false :=
    beq_eq_false_iff_ne.mpr (fun hcontra => hc (Option.some.inj hcontra).symm)
  have hb2 : ((none : Option String) == some cat) = false := rfl
  have h1 : List.filter
        (fun h => lookup (tagSet st.core.category st.core.nextHandle "Surface") h == some cat)
        st.core.entities
      = List.filter (fun h => lookup st.core.category h == some cat) st.core.entities :=
    List.filter_congr (fun h hh => by
      rw [lookup_tagSet_ne _ _ _ _ (Nat.ne_of_lt (hent h hh))])
  have h2 : List.filter
        (fun h => lookup (tagSet st.core.category st.core.nextHandle "Surface") h == some cat)
        [st.core.nextHandle] = [] := by
    simp [List.filter, lookup_tagSet_self, hb]
  have h3 : List.filter
        (fun h => lookup (tagSet st.core.category st.core.nextHandle "Surface") h == some cat)
        [st.core.nextHandle + 1] = [] := by
    have hl : lookup (tagSet st.core.category st.core.nextHandle "Surface")
        (st.core.nextHandle + 1) = none := by
      rw [lookup_tagSet_ne _ _ _ _ (by omega)]
      exact lookup_eq_none_of_keys_lt hcat (by omega)
    simp [List.filter, hl, hb2]
  rw [h1, h2, h3, List.append_nil, List.append_nil]

lemma processSurfaces_pres (i H : Nat) (S : List Nat) :
    ∀ st : BuildState,
      st.core.nextHandle ≤ (processSurfaces i H S st).core.nextHandle ∧
      (processSurfaces i H S st).known_groups = st.known_groups ∧
      (processSurfaces i H S st).core.facetingTol = st.core.facetingTol ∧
      (processSurfaces i H S st).core.nameData = st.core.nameData ∧
      (∀ p ∈ st.core.contents, p ∈ (processSurfaces i H S st).core.contents) ∧
      (∀ h, h < st.core.nextHandle →
        lookup (processSurfaces i H S st).core.globalId h = lookup st.core.globalId h) ∧
      (∀ h, h < st.core.nextHandle →
        lookup (processSurfaces i H S st).core.category h = lookup st.core.category h) := by
  induction S with
  | nil =>
    intro st
    rw [processSurfaces_nil]
    exact ⟨le_refl _, rfl, rfl, rfl, fun p hp => hp, fun h _ => rfl, fun h _ => rfl⟩
  | cons t ts ih =>
    intro st
    rw [processSurfaces_cons]
    rcases hl : lookup st.known_surfaces t with _ | r
    · rw [processSurface_of_none i H hl]
      obtain ⟨m1, m2, m3, m4, m5, m6, m7⟩ := ih (processSurfaceNew i H t st)
      refine ⟨?_, ?_, ?_, ?_, ?_, ?_, ?_⟩
      · calc st.core.nextHandle
            ≤ (processSurfaceNew i H t st).core.nextHandle := by rw [pSNew_next]; omega
          _ ≤ _ := m1
      · rw [m2, pSNew_groups]
      · rw [m3, pSNew_facetingTol]
      · rw [m4, pSNew_nameData]
      · intro p hp
        exact m5 p (by rw [pSNew_contents]; exact List.mem_append_left _ hp)
      · intro h hh
        rw [m6 h (by rw [pSNew_next]; omega), pSNew_globalId,
          lookup_tagSet_ne _ _ _ _ (by omega)]
      · intro h hh
        rw [m7 h (by rw [pSNew_next]; omega), pSNew_category,
          lookup_tagSet_ne _ _ _ _ (by omega)]
    · rw [processSurface_of_some i H hl]
      obtain ⟨m1, m2, m3, m4, m5, m6, m7⟩ := ih (processSurfaceOld H t r st)
      refine ⟨?_, ?_, ?_, ?_, ?_, ?_, ?_⟩
      · calc st.core.nextHandle
            = (processSurfaceOld H t r st).core.nextHandle := (pSOld_next ..).symm
          _ ≤ _ := m1
      · rw [m2, pSOld_groups]
      · rw [m3, pSOld_facetingTol]
      · rw [m4, pSOld_nameData]
      · intro p hp
        exact m5 p (by rw [pSOld_contents]; exact hp)
      · intro h hh
        rw [m6 h (by rw [pSOld_next]; omega), pSOld_globalId]
      · intro h hh
        rw [m7 h (by rw [pSOld_next]; omega), pSOld_category]

lemma processSurfaces_cat (i H : Nat) (S : List Nat) :
    ∀ st : BuildState,
      (∀ h ∈ st.core.entities, h < st.core.nextHandle) →
      (∀ p ∈ st.core.category, p.1 < st.core.nextHandle) →
      (∀ p ∈ st.core.contents, p.1 < st.core.nextHandle) →
      ((∀ h ∈ (processSurfaces i H S st).core.entities,
          h < (processSurfaces i H S st).core.nextHandle) ∧
       (∀ p ∈ (processSurfaces i H S st).core.category,
          p.1 < (processSurfaces i H S st).core.nextHandle) ∧
       (∀ p ∈ (processSurfaces i H S st).core.contents,
          p.1 < (processSurfaces i H S st).core.nextHandle) ∧
       (∀ cat, cat ≠ "Surface" →
         (processSurfaces i H S st).core.handlesWithCategory cat =
           st.core.handlesWithCategory cat)) := by
  induction S with
  | nil =>
    intro st hent hcat hcont
    rw [processSurfaces_nil]
    exact ⟨hent, hcat, hcont, fun _ _ => rfl⟩
  | cons t ts ih =>
    intro st hent hcat hcont
    rw [processSurfaces_cons]
    rcases hl : lookup st.known_surfaces t with _ | r
    · rw [processSurface_of_none i H hl]
      have hent1 : ∀ h ∈ (processSurfaceNew i H t st).core.entities,
          h < (processSurfaceNew i H t st).core.nextHandle := by
        rw [pSNew_entities, pSNew_next]
        intro h hh
        rcases List.mem_append.mp hh with hh' | hh'
        · rcases List.mem_append.mp hh' with hh'' | hh''
          · exact lt_trans (hent h hh'') (by omega)
          · rw [List.mem_singleton.mp hh'']; omega
        · rw [List.mem_singleton.mp hh']; omega
      have hcat1 : ∀ p ∈ (processSurfaceNew i H t st).core.category,
          p.1 < (processSurfaceNew i H t st).core.nextHandle := by
        rw [pSNew_category, pSNew_next]
        intro p hp
        rcases List.mem_cons.mp hp with hp' | hp'
        · rw [hp']; simp
        · exact lt_trans (hcat p hp') (by omega)
      have hcont1 : ∀ p ∈ (processSurfaceNew i H t st).core.contents,
          p.1 < (processSurfaceNew i H t st).core.nextHandle := by
        rw [pSNew_contents, pSNew_next]
        intro p hp
        rcases List.mem_append.mp hp with hp' | hp'
        · exact lt_trans (hcont p hp') (by omega)
        · rw [List.mem_singleton.mp hp']; simp
      obtain ⟨m1, m2, m3, m4⟩ := ih (processSurfaceNew i H t st) hent1 hcat1 hcont1
      refine ⟨m1, m2, m3, fun cat hc => ?_⟩
      rw [m4 cat hc, handlesWithCategory_pSNew i H t st hent hcat cat hc]
    · rw [processSurface_of_some i H hl]
      have hent1 : ∀ h ∈ (processSurfaceOld H t r st).core.entities,
          h < (processSurfaceOld H t r st).core.nextHandle := by
        rw [pSOld_entities, pSOld_next]; exact hent
      have hcat1 : ∀ p ∈ (processSurfaceOld H t r st).core.category,
          p.1 < (processSurfaceOld H t r st).core.nextHandle := by
        rw [pSOld_category, pSOld_next]; exact hcat
      have hcont1 : ∀ p ∈ (processSurfaceOld H t r st).core.contents,
          p.1 < (processSurfaceOld H t r st).core.nextHandle := by
        rw [pSOld_contents, pSOld_next]; exact hcont
      obtain ⟨m1, m2, m3, m4⟩ := ih (processSurfaceOld H t r st) hent1 hcat1 hcont1
      refine ⟨m1, m2, m3, fun cat hc => ?_⟩
      rw [m4 cat hc, handlesWithCategory_pSOld]

/-! ### Lookup behaviour of the known_surfaces dictionary across the two branches -/

lemma pSNew_lookup_self (i H t : Nat) (st : BuildState)
    (hl : lookup st.known_surfaces t = none) :
    lookup (processSurfaceNew i H t st).known_surfaces t =
      some ⟨st.core.nextHandle, H, 0⟩ := by
  rw [pSNew_known, lookup_concat_none hl, lookup_singleton_self]

lemma pSNew_lookup_ne (i H t t' : Nat) (st : BuildState) (hne : t' ≠ t) :
    lookup (processSurfaceNew i H t st).known_surfaces t' =
      lookup st.known_surfaces t' := by
  rw [pSNew_known]
  rcases h : lookup st.known_surfaces t' with _ | r
  · rw [lookup_concat_none h, lookup_singleton_ne _ hne]
  · rw [lookup_concat_some h]

lemma pSOld_lookup_self (H t : Nat) (r0 : _Surface) (st : BuildState)
    (hl : lookup st.known_surfaces t = some r0) :
    lookup (processSurfaceOld H t r0 st).known_surfaces t =
      some ⟨r0.handle, r0.forward_volume, H⟩ := by
  rw [pSOld_known]
  exact lookup_updateLookup_self _ _ _ hl

lemma pSOld_lookup_ne (H t t' : Nat) (r0 : _Surface) (st : BuildState) (hne : t' ≠ t) :
    lookup (processSurfaceOld H t r0 st).known_surfaces t' =
      lookup st.known_surfaces t' := by
  rw [pSOld_known]
  exact lookup_updateLookup_ne _ _ _ _ hne

/-- Handle bounds and injectivity of the surface records of a build state. -/
structure SurfBounds (st : BuildState) : Prop where
  bound : ∀ t r, lookup st.known_surfaces t = some r → r.handle < st.core.nextHandle
  inj : ∀ t t' r r', lookup st.known_surfaces t = some r →
    lookup st.known_surfaces t' = some r' → r.handle = r'.handle → t = t'

lemma SurfBounds_pSNew (i H t : Nat) (st : BuildState)
    (hsb : SurfBounds st) (hl : lookup st.known_surfaces t = none) :
    SurfBounds (processSurfaceNew i H t st) := by
  constructor
  · intro u r hu
    rw [pSNew_next]
    by_cases hut : u = t
    · subst hut
      rw [pSNew_lookup_self i H u st hl] at hu
      obtain rfl := Option.some.inj hu
      show st.core.nextHandle < st.core.nextHandle + 2
      omega
    · rw [pSNew_lookup_ne i H t u st hut] at hu
      have := hsb.bound u r hu
      omega
  · intro u u' r r' hu hu' hh
    by_cases hut : u = t <;> by_cases hut' : u' = t
    · rw [hut, hut']
    · subst hut
      rw [pSNew_lookup_self i H u st hl] at hu
      obtain rfl := Option.some.inj hu
      rw [pSNew_lookup_ne i H u u' st hut'] at hu'
      have hb := hsb.bound u' r' hu'
      have heq : st.core.nextHandle = r'.handle := hh
      exfalso
      omega
    · subst hut'
      rw [pSNew_lookup_self i H u' st hl] at hu'
      obtain rfl := Option.some.inj hu'
      rw [pSNew_lookup_ne i H u' u st hut] at hu
      have hb := hsb.bound u r hu
      have heq : r.handle = st.core.nextHandle := hh
      exfalso
      omega
    · rw [pSNew_lookup_ne i H t u st hut] at hu
      rw [pSNew_lookup_ne i H t u' st hut'] at hu'
      exact hsb.inj u u' r r' hu hu' hh

lemma SurfBounds_pSOld (H t : Nat) (r0 : _Surface) (st : BuildState)
    (hsb : SurfBounds st) (hl : lookup st.known_surfaces t = some r0) :
    SurfBounds (processSurfaceOld H t r0 st) := by
  have hmap : ∀ u r, lookup (processSurfaceOld H t r0 st).known_surfaces u = some r →
      ∃ rold, lookup st.known_surfaces u = some rold ∧ rold.handle = r.handle := by
    intro u r hu
    by_cases hut : u = t
    · subst hut
      rw [pSOld_lookup_self H u r0 st hl] at hu
      obtain rfl := Option.some.inj hu
      exact ⟨r0, hl, rfl⟩
    · rw [pSOld_lookup_ne H t u r0 st hut] at hu
      exact ⟨r, hu, rfl⟩
  constructor
  · intro u r hu
    obtain ⟨rold, ho, hhh⟩ := hmap u r hu
    rw [pSOld_next, ← hhh]
    exact hsb.bound u rold ho
  · intro u u' r r' hu hu' hh
    obtain ⟨ro, ho, hho⟩ := hmap u r hu
    obtain ⟨ro', ho', hho'⟩ := hmap u' r' hu'
    exact hsb.inj u u' ro ro' ho ho' (by rw [hho, hho', hh])

lemma filter_stl_concat (l : List (Nat × Nat)) (t0 i t : Nat) :
    (l ++ [(t0, i)]).filter (fun p => p.1 == t) =
      l.filter (fun p => p.1 == t) ++ (if t0 = t then [(t0, i)] else []) := by
  rw [List.filter_append]
  congr 1
  by_cases h : t0 = t
  · simp [List.filter, h]
  · have hb : (t0 == t) = false := beq_eq_false_iff_ne.mpr h
    simp [List.filter, h, hb]

/-- Full characterization of one volume's surface sweep: surfaces outside the
adjacency list are untouched; a first-seen surface gets a fresh record with
forward := the current volume and a sense tag written as the complete pair;
an already-seen surface gets reverse := the current volume and its sense tag
rewritten as the complete pair; the facet-import trace grows exactly at
first-seen surfaces. -/
lemma processSurfaces_spec (i H : Nat) (S : List Nat) :
    ∀ st : BuildState, S.Nodup → SurfBounds st →
      (SurfBounds (processSurfaces i H S st) ∧
       (∀ t, t ∉ S →
         lookup (processSurfaces i H S st).known_surfaces t = lookup st.known_surfaces t) ∧
       (∀ t r, t ∉ S → lookup st.known_surfaces t = some r →
         lookup (processSurfaces i H S st).core.surfSense r.handle =
           lookup st.core.surfSense r.handle) ∧
       (∀ t, t ∈ S → lookup st.known_surfaces t = none →
         ∃ h, st.core.nextHandle ≤ h ∧
           lookup (processSurfaces i H S st).known_surfaces t = some ⟨h, H, 0⟩ ∧
           lookup (processSurfaces i H S st).core.surfSense h = some [H, 0]) ∧
       (∀ t r, t ∈ S → lookup st.known_surfaces t = some r →
         lookup (processSurfaces i H S st).known_surfaces t =
             some ⟨r.handle, r.forward_volume, H⟩ ∧
         lookup (processSurfaces i H S st).core.surfSense r.handle =
           some [r.forward_volume, H]) ∧
       (∀ t, t ∈ S → lookup st.known_surfaces t = none →
         (processSurfaces i H S st).stlImports.filter (fun p => p.1 == t) =
           st.stlImports.filter (fun p => p.1 == t) ++ [(t, i)]) ∧
       (∀ t, t ∉ S →
         (processSurfaces i H S st).stlImports.filter (fun p => p.1 == t) =
           st.stlImports.filter (fun p => p.1 == t)) ∧
       (∀ t r, t ∈ S → lookup st.known_surfaces t = some r →
         (processSurfaces i H S st).stlImports.filter (fun p => p.1 == t) =
           st.stlImports.filter (fun p => p.1 == t))) := by
  induction S with
  | nil =>
    intro st _ hsb
    rw [processSurfaces_nil]
    exact ⟨hsb, fun _ _ => rfl, fun _ _ _ _ => rfl,
      fun t ht => absurd ht (List.not_mem_nil t),
      fun t r ht => absurd ht (List.not_mem_nil t),
      fun t ht => absurd ht (List.not_mem_nil t), fun _ _ => rfl,
      fun t r ht => absurd ht (List.not_mem_nil t)⟩
  | cons t0 ts ih =>
    intro st hnd hsb
    obtain ⟨ht0, hts⟩ := List.nodup_cons.mp hnd
    rw [processSurfaces_cons]
    rcases hl : lookup st.known_surfaces t0 with _ | r0
    · -- first encounter of t0
      rw [processSurface_of_none i H hl]
      have hsb1 := SurfBounds_pSNew i H t0 st hsb hl
      obtain ⟨B, Kout, Sout, Knew, Kold, Fnew, Fout, Fold⟩ :=
        ih (processSurfaceNew i H t0 st) hts hsb1
      have hknown_ne : ∀ t, t ≠ t0 →
          lookup (processSurfaceNew i H t0 st).known_surfaces t =
            lookup st.known_surfaces t := fun t hne => pSNew_lookup_ne i H t0 t st hne
      have hfilter1 : ∀ t, (processSurfaceNew i H t0 st).stlImports.filter
            (fun p => p.1 == t) =
          st.stlImports.filter (fun p => p.1 == t) ++ (if t0 = t then [(t0, i)] else []) := by
        intro t
        rw [pSNew_stl]
        exact filter_stl_concat _ t0 i t
      refine ⟨B, ?_, ?_, ?_, ?_, ?_, ?_, ?_⟩
      · -- lookups outside t0 :: ts unchanged
        intro t htmem
        have hne : t ≠ t0 := fun h => htmem (h ▸ List.mem_cons_self t0 ts)
        have hnotts : t ∉ ts := fun h => htmem (List.mem_cons_of_mem _ h)
        rw [Kout t hnotts, hknown_ne t hne]
      · -- sense tags of records outside t0 :: ts unchanged
        intro t r htmem hr
        have hne : t ≠ t0 := fun h => htmem (h ▸ List.mem_cons_self t0 ts)
        have hnotts : t ∉ ts := fun h => htmem (List.mem_cons_of_mem _ h)
        have hr1 : lookup (processSurfaceNew i H t0 st).known_surfaces t = some r := by
          rw [hknown_ne t hne]; exact hr
        rw [Sout t r hnotts hr1, pSNew_sense,
          lookup_tagSet_ne _ _ _ _ (Nat.ne_of_lt (hsb.bound t r hr))]
      · -- first-seen surfaces of t0 :: ts
        intro t htmem hnone
        rcases List.mem_cons.mp htmem with rfl | htts
        · refine ⟨st.core.nextHandle, le_refl _, ?_, ?_⟩
          · rw [Kout t ht0, pSNew_lookup_self i H t st hl]
          · have hrec1 : lookup (processSurfaceNew i H t st).known_surfaces t =
                some ⟨st.core.nextHandle, H, 0⟩ := pSNew_lookup_self i H t st hl
            have := Sout t ⟨st.core.nextHandle, H, 0⟩ ht0 hrec1
            rw [this, pSNew_sense, lookup_tagSet_self]
        · have hne : t ≠ t0 := fun h => ht0 (h ▸ htts)
          have hnone1 : lookup (processSurfaceNew i H t0 st).known_surfaces t = none := by
            rw [hknown_ne t hne]; exact hnone
          obtain ⟨h, hge, hrec, hsense⟩ := Knew t htts hnone1
          refine ⟨h, ?_, hrec, hsense⟩
          have : (processSurfaceNew i H t0 st).core.nextHandle = st.core.nextHandle + 2 :=
            pSNew_next i H t0 st
          omega
      · -- already-seen surfaces of t0 :: ts
        intro t r htmem hr
        rcases List.mem_cons.mp htmem with rfl | htts
        · rw [hl] at hr
          exact absurd hr (by simp)
        · have hne : t ≠ t0 := fun h => ht0 (h ▸ htts)
          have hr1 : lookup (processSurfaceNew i H t0 st).known_surfaces t = some r := by
            rw [hknown_ne t hne]; exact hr
          exact Kold t r htts hr1
      · -- facet trace: first-seen
        intro t htmem hnone
        rcases List.mem_cons.mp htmem with rfl | htts
        · rw [Fout t ht0, hfilter1 t, if_pos rfl]
        · have hne : t ≠ t0 := fun h => ht0 (h ▸ htts)
          have hnone1 : lookup (processSurfaceNew i H t0 st).known_surfaces t = none := by
            rw [hknown_ne t hne]; exact hnone
          rw [Fnew t htts hnone1, hfilter1 t, if_neg (fun h => hne h.symm),
            List.append_nil]
      · -- facet trace: outside
        intro t htmem
        have hne : t ≠ t0 := fun h => htmem (h ▸ List.mem_cons_self t0 ts)
        have hnotts : t ∉ ts := fun h => htmem (List.mem_cons_of_mem _ h)
        rw [Fout t hnotts, hfilter1 t, if_neg (fun h => hne h.symm), List.append_nil]
      · -- facet trace: already-seen
        intro t r htmem hr
        rcases List.mem_cons.mp htmem with rfl | htts
        · rw [hl] at hr
          exact absurd hr (by simp)
        · have hne : t ≠ t0 := fun h => ht0 (h ▸ htts)
          have hr1 : lookup (processSurfaceNew i H t0 st).known_surfaces t = some r := by
            rw [hknown_ne t hne]; exact hr
          rw [Fold t r htts hr1, hfilter1 t, if_neg (fun h => hne h.symm),
            List.append_nil]
    · -- t0 was seen before
      rw [processSurface_of_some i H hl]
      have hsb1 := SurfBounds_pSOld H t0 r0 st hsb hl
      obtain ⟨B, Kout, Sout, Knew, Kold, Fnew, Fout, Fold⟩ :=
        ih (processSurfaceOld H t0 r0 st) hts hsb1
      have hknown_ne : ∀ t, t ≠ t0 →
          lookup (processSurfaceOld H t0 r0 st).known_surfaces t =
            lookup st.known_surfaces t := fun t hne => pSOld_lookup_ne H t0 t r0 st hne
      refine ⟨B, ?_, ?_, ?_, ?_, ?_, ?_, ?_⟩
      · intro t htmem
        have hne : t ≠ t0 := fun h => htmem (h ▸ List.mem_cons_self t0 ts)
        have hnotts : t ∉ ts := fun h => htmem (List.mem_cons_of_mem _ h)
        rw [Kout t hnotts, hknown_ne t hne]
      · intro t r htmem hr
        have hne : t ≠ t0 := fun h => htmem (h ▸ List.mem_cons_self t0 ts)
        have hnotts : t ∉ ts := fun h => htmem (List.mem_cons_of_mem _ h)
        have hr1 : lookup (processSurfaceOld H t0 r0 st).known_surfaces t = some r := by
          rw [hknown_ne t hne]; exact hr
        have hhne : r.handle ≠ r0.handle := by
          intro hcontra
          exact hne (hsb.inj t t0 r r0 hr hl hcontra)
        rw [Sout t r hnotts hr1, pSOld_sense, lookup_tagSet_ne _ _ _ _ hhne]
      · intro t htmem hnone
        rcases List.mem_cons.mp htmem with rfl | htts
        · rw [hl] at hnone
          exact absurd hnone (by simp)
        · have hne : t ≠ t0 := fun h => ht0 (h ▸ htts)
          have hnone1 : lookup (processSurfaceOld H t0 r0 st).known_surfaces t = none := by
            rw [hknown_ne t hne]; exact hnone
          obtain ⟨h, hge, hrec, hsense⟩ := Knew t htts hnone1
          refine ⟨h, ?_, hrec, hsense⟩
          have : (processSurfaceOld H t0 r0 st).core.nextHandle = st.core.nextHandle :=
            pSOld_next H t0 r0 st
          omega
      · intro t r htmem hr
        rcases List.mem_cons.mp htmem with rfl | htts
        · obtain rfl := Option.some.inj (hl.symm.trans hr)
          constructor
          · rw [Kout t ht0, pSOld_lookup_self H t r0 st hl]
          · have hrec1 : lookup (processSurfaceOld H t r0 st).known_surfaces t =
                some ⟨r0.handle, r0.forward_volume, H⟩ := pSOld_lookup_self H t r0 st hl
            have := Sout t ⟨r0.handle, r0.forward_volume, H⟩ ht0 hrec1
            rw [this, pSOld_sense, lookup_tagSet_self]
        · have hne : t ≠ t0 := fun h => ht0 (h ▸ htts)
          have hr1 : lookup (processSurfaceOld H t0 r0 st).known_surfaces t = some r := by
            rw [hknown_ne t hne]; exact hr
          exact Kold t r htts hr1
      · intro t htmem hnone
        rcases List.mem_cons.mp htmem with rfl | htts
        · rw [hl] at hnone
          exact absurd hnone (by simp)
        · have hne : t ≠ t0 := fun h => ht0 (h ▸ htts)
          have hnone1 : lookup (processSurfaceOld H t0 r0 st).known_surfaces t = none := by
            rw [hknown_ne t hne]; exact hnone
          rw [Fnew t htts hnone1, pSOld_stl]
      · intro t htmem
        have hnotts : t ∉ ts := fun h => htmem (List.mem_cons_of_mem _ h)
        rw [Fout t hnotts, pSOld_stl]
      · intro t r htmem hr
        rcases List.mem_cons.mp htmem with rfl | htts
        · rw [Fout t ht0, pSOld_stl]
        · have hne : t ≠ t0 := fun h => ht0 (h ▸ htts)
          have hr1 : lookup (processSurfaceOld H t0 r0 st).known_surfaces t = some r := by
            rw [hknown_ne t hne]; exact hr
          rw [Fold t r htts hr1, pSOld_stl]

/-! ### Volume-level step lemmas -/

lemma lookup_mem {κ α : Type} [BEq κ] {l : List (κ × α)} {k : κ} {v : α}
    (h : lookup l k = some v) : ∃ p ∈ l, p.2 = v := by
  unfold lookup at h
  rcases hf : l.find? (fun p => p.1 == k) with _ | p
  · rw [hf] at h
    cases h
  · rw [hf] at h
    exact ⟨p, List.mem_of_find?_eq_some hf, Option.some.inj h⟩

lemma processVolume_of_bad_groups (mesh : GmshMesh) (i vtag : Nat) (st : BuildState)
    (hg : (mesh.physicalGroups vtag).length ≠ 1) :
    ∃ msg, processVolume mesh i vtag st = .error (.valueError msg) := by
  simp only [processVolume]
  rw [if_pos hg]
  exact ⟨_, rfl⟩

/-- Dissection of a successful volume step: it is the inner surface sweep run
with the fresh volume handle on an intermediate state whose surface-side data
is untouched and whose volume/group side is as lines 428-456 describe. -/
lemma processVolume_ok_elim (mesh : GmshMesh) (i vtag : Nat) (st : BuildState)
    (hg : (mesh.physicalGroups vtag).length = 1)
    (hent : ∀ h ∈ st.core.entities, h < st.core.nextHandle)
    (hcat : ∀ p ∈ st.core.category, p.1 < st.core.nextHandle)
    (hcont : ∀ p ∈ st.core.contents, p.1 < st.core.nextHandle)
    (hgrp : ∀ p ∈ st.known_groups, p.2 < st.core.nextHandle) :
    ∃ st1 : BuildState,
      processVolume mesh i vtag st =
        .ok (processSurfaces i st.core.nextHandle (mesh.adjacency vtag) st1) ∧
      st1.known_surfaces = st.known_surfaces ∧
      st1.stlImports = st.stlImports ∧
      st1.core.surfSense = st.core.surfSense ∧
      st1.core.facetingTol = st.core.facetingTol ∧
      st.core.nextHandle < st1.core.nextHandle ∧
      (∀ h ∈ st1.core.entities, h < st1.core.nextHandle) ∧
      (∀ p ∈ st1.core.category, p.1 < st1.core.nextHandle) ∧
      (∀ p ∈ st1.core.contents, p.1 < st1.core.nextHandle) ∧
      (∀ p ∈ st1.known_groups, p.2 < st1.core.nextHandle) ∧
      st1.core.volumeHandles = st.core.volumeHandles ++ [st.core.nextHandle] ∧
      lookup st1.core.globalId st.core.nextHandle = some i ∧
      (∀ h, h < st.core.nextHandle →
        lookup st1.core.globalId h = lookup st.core.globalId h) := by
  rcases hgl : lookup st.known_groups ((mesh.physicalGroups vtag).getD 0 0) with _ | gs
  · -- group id not seen before: a fresh Group meshset is created
    refine ⟨{ st with
        core := { st.core with
          nextHandle := st.core.nextHandle + 2,
          entities := st.core.entities ++ [st.core.nextHandle] ++ [st.core.nextHandle + 1],
          globalId := tagSet (tagSet st.core.globalId st.core.nextHandle i)
            (st.core.nextHandle + 1) ((mesh.physicalGroups vtag).getD 0 0),
          geomDimension := tagSet st.core.geomDimension st.core.nextHandle 3,
          category := tagSet (tagSet st.core.category st.core.nextHandle "Volume")
            (st.core.nextHandle + 1) "Group",
          nameData := tagSet st.core.nameData (st.core.nextHandle + 1)
            (mesh.physicalName ((mesh.physicalGroups vtag).getD 0 0)),
          contents := st.core.contents ++ [(st.core.nextHandle + 1, st.core.nextHandle)] },
        known_groups := st.known_groups ++
          [(((mesh.physicalGroups vtag).getD 0 0), st.core.nextHandle + 1)] },
      ?_, rfl, rfl, rfl, rfl, by dsimp only; omega, ?_, ?_, ?_, ?_, ?_, ?_, ?_⟩
    · simp only [processVolume]
      rw [if_neg (by omega)]
      rw [hgl]
      rfl
    · intro h hh
      dsimp only at hh ⊢
      simp only [List.mem_append, List.mem_singleton] at hh
      rcases hh with (hh | hh) | hh
      · exact lt_trans (hent h hh) (by omega)
      · omega
      · omega
    · intro p hp
      dsimp only at hp ⊢
      simp only [tagSet, List.mem_cons] at hp
      rcases hp with hp | hp | hp
      · rw [hp]; simp
      · rw [hp]; simp
      · exact lt_trans (hcat p hp) (by omega)
    · intro p hp
      dsimp only at hp ⊢
      simp only [List.mem_append, List.mem_singleton] at hp
      rcases hp with hp | hp
      · exact lt_trans (hcont p hp) (by omega)
      · rw [hp]; simp
    · intro p hp
      dsimp only at hp ⊢
      simp only [List.mem_append, List.mem_singleton] at hp
      rcases hp with hp | hp
      · exact lt_trans (hgrp p hp) (by omega)
      · rw [hp]; simp
    · unfold MoabCore.volumeHandles MoabCore.handlesWithCategory
      dsimp only
      simp only [List.filter_append]
      have e1 : List.filter (fun h =>
          lookup (tagSet (tagSet st.core.category st.core.nextHandle "Volume")
            (st.core.nextHandle + 1) "Group") h == some "Volume") st.core.entities =
          List.filter (fun h => lookup st.core.category h == some "Volume")
            st.core.entities := by
        refine List.filter_congr (fun h hh => ?_)
        have hlt := hent h hh
        rw [lookup_tagSet_ne _ _ _ _ (by omega), lookup_tagSet_ne _ _ _ _ (by omega)]
      have e2 : List.filter (fun h =>
          lookup (tagSet (tagSet st.core.category st.core.nextHandle "Volume")
            (st.core.nextHandle + 1) "Group") h == some "Volume")
          [st.core.nextHandle] = [st.core.nextHandle] := by
        have hl2 : lookup (tagSet (tagSet st.core.category st.core.nextHandle "Volume")
            (st.core.nextHandle + 1) "Group") st.core.nextHandle = some "Volume" := by
          rw [lookup_tagSet_ne _ _ _ _ (by omega), lookup_tagSet_self]
        simp [List.filter, hl2]
      have e3 : List.filter (fun h =>
          lookup (tagSet (tagSet st.core.category st.core.nextHandle "Volume")
            (st.core.nextHandle + 1) "Group") h == some "Volume")
          [st.core.nextHandle + 1] = [] := by
        have hl3 : lookup (tagSet (tagSet st.core.category st.core.nextHandle "Volume")
            (st.core.nextHandle + 1) "Group") (st.core.nextHandle + 1) = some "Group" :=
          lookup_tagSet_self _ _ _
        have hb : ((some "Group" : Option String) == some "Volume") = false := by decide
        simp [List.filter, hl3, hb]
      rw [e1, e2, e3, List.append_nil]
    · dsimp only
      rw [lookup_tagSet_ne _ _ _ _ (by omega), lookup_tagSet_self]
    · intro h hh
      dsimp only
      rw [lookup_tagSet_ne _ _ _ _ (by omega), lookup_tagSet_ne _ _ _ _ (by omega)]
  · -- group id seen before: the existing Group meshset is reused
    have hgs : gs < st.core.nextHandle := by
      obtain ⟨q, hq, hq2⟩ := lookup_mem hgl
      have := hgrp q hq
      omega
    refine ⟨{ st with
        core := { st.core with
          nextHandle := st.core.nextHandle + 1,
          entities := st.core.entities ++ [st.core.nextHandle],
          globalId := tagSet st.core.globalId st.core.nextHandle i,
          geomDimension := tagSet st.core.geomDimension st.core.nextHandle 3,
          category := tagSet st.core.category st.core.nextHandle "Volume",
          contents := st.core.contents ++ [(gs, st.core.nextHandle)] } },
      ?_, rfl, rfl, rfl, rfl, by dsimp only; omega, ?_, ?_, ?_, ?_, ?_, ?_, ?_⟩
    · simp only [processVolume]
      rw [if_neg (by omega)]
      rw [hgl]
      rfl
    · intro h hh
      dsimp only at hh ⊢
      simp only [List.mem_append, List.mem_singleton] at hh
      rcases hh with hh | hh
      · exact lt_trans (hent h hh) (by omega)
      · omega
    · intro p hp
      dsimp only at hp ⊢
      simp only [tagSet, List.mem_cons] at hp
      rcases hp with hp | hp
      · rw [hp]; simp
      · exact lt_trans (hcat p hp) (by omega)
    · intro p hp
      dsimp only at hp ⊢
      simp only [List.mem_append, List.mem_singleton] at hp
      rcases hp with hp | hp
      · exact lt_trans (hcont p hp) (by omega)
      · rw [hp]
        dsimp only
        omega
    · intro p hp
      dsimp only at hp ⊢
      exact lt_trans (hgrp p hp) (by omega)
    · unfold MoabCore.volumeHandles MoabCore.handlesWithCategory
      dsimp only
      simp only [List.filter_append]
      have e1 : List.filter (fun h =>
          lookup (tagSet st.core.category st.core.nextHandle "Volume") h == some "Volume")
            st.core.entities =
          List.filter (fun h => lookup st.core.category h == some "Volume")
            st.core.entities := by
        refine List.filter_congr (fun h hh => ?_)
        have hlt := hent h hh
        rw [lookup_tagSet_ne _ _ _ _ (by omega)]
      have e2 : List.filter (fun h =>
          lookup (tagSet st.core.category st.core.nextHandle "Volume") h == some "Volume")
          [st.core.nextHandle] = [st.core.nextHandle] := by
        simp [List.filter, lookup_tagSet_self]
      rw [e1, e2]
    · dsimp only
      exact lookup_tagSet_self _ _ _
    · intro h hh
      dsimp only
      rw [lookup_tagSet_ne _ _ _ _ (by omega)]

lemma headD_mem {α : Type} (l : List α) (d : α) (h : l ≠ []) : l.headD d ∈ l := by
  cases l with
  | nil => exact absurd rfl h
  | cons a l => exact List.mem_cons_self a l

lemma getLastD_mem {α : Type} : ∀ (l : List α) (d : α), l ≠ [] → l.getLastD d ∈ l
  | [], d, h => absurd rfl h
  | a :: l, d, _ => by
    rw [List.getLastD_cons]
    by_cases hl : l = []
    · subst hl
      simp [List.getLastD]
    · exact List.mem_cons_of_mem a (getLastD_mem l a hl)

/-- The volume/group side of the loop invariant after k processed volumes:
handle discipline of the core, empty faceting_tol store, and the Volume
entities being exactly k with global_id j at position j. -/
structure CoreInv (k : Nat) (st : BuildState) : Prop where
  onelt : 1 ≤ st.core.nextHandle
  entLt : ∀ h ∈ st.core.entities, h < st.core.nextHandle
  catLt : ∀ p ∈ st.core.category, p.1 < st.core.nextHandle
  contLt : ∀ p ∈ st.core.contents, p.1 < st.core.nextHandle
  grpLt : ∀ p ∈ st.known_groups, p.2 < st.core.nextHandle
  ftNil : st.core.facetingTol = []
  volLen : st.core.volumeHandles.length = k
  gid : ∀ j, j < k → lookup st.core.globalId (st.core.volumeHandles.getD j 0) = some j

/-- The surface side of the loop invariant after k processed volumes: a tag
is known iff it occurred; forward is the first-occurrence volume; reverse is
unset iff at most one occurrence, else the last-occurrence volume; the sense
tag always holds the complete pair; one facet import per known tag at its
first occurrence. -/
structure SurfInv (mesh : GmshMesh) (k : Nat) (st : BuildState) : Prop where
  sb : SurfBounds st
  keys : ∀ t, (lookup st.known_surfaces t).isSome = true ↔ occurrencesIn mesh k t ≠ []
  recs : ∀ t r, lookup st.known_surfaces t = some r →
    r.forward_volume = st.core.volumeHandles.getD ((occurrencesIn mesh k t).headD 0) 0 ∧
    ((occurrencesIn mesh k t).length ≤ 1 → r.reverse_volume = 0) ∧
    (2 ≤ (occurrencesIn mesh k t).length →
      r.reverse_volume = st.core.volumeHandles.getD ((occurrencesIn mesh k t).getLastD 0) 0) ∧
    lookup st.core.surfSense r.handle = some [r.forward_volume, r.reverse_volume]
  stl : ∀ t, ((st.stlImports.filter (fun p => p.1 == t)).map (fun p => p.2)) =
    (occurrencesIn mesh k t).take 1

lemma volumeHandles_sub_entities (c : MoabCore) :
    ∀ h ∈ c.volumeHandles, h ∈ c.entities := by
  intro h hh
  exact List.mem_of_mem_filter hh

lemma CoreInv_step (mesh : GmshMesh) (k vtag : Nat) (st st' : BuildState)
    (hci : CoreInv k st)
    (hok : processVolume mesh k vtag st = .ok st') :
    CoreInv (k + 1) st' ∧
    st.core.nextHandle ≤ st'.core.nextHandle ∧
    st'.core.volumeHandles = st.core.volumeHandles ++ [st.core.nextHandle] := by
  have hg : (mesh.physicalGroups vtag).length = 1 := by
    by_contra hne
    obtain ⟨msg, hmsg⟩ := processVolume_of_bad_groups mesh k vtag st hne
    rw [hmsg] at hok
    cases hok
  obtain ⟨st1, heq, hks, hstl, hsense, hft, hlt, hent1, hcat1, hcont1, hgrp1,
    hvh1, hgid1, hgidpres⟩ :=
    processVolume_ok_elim mesh k vtag st hg hci.entLt hci.catLt hci.contLt hci.grpLt
  rw [heq] at hok
  obtain rfl := Except.ok.inj hok
  obtain ⟨pnext, pgroups, pft, pname, pcont, pgid, pcat⟩ :=
    processSurfaces_pres k st.core.nextHandle (mesh.adjacency vtag) st1
  obtain ⟨centLt, ccatLt, ccontLt, chwc⟩ :=
    processSurfaces_cat k st.core.nextHandle (mesh.adjacency vtag) st1 hent1 hcat1 hcont1
  have hvh' : (processSurfaces k st.core.nextHandle (mesh.adjacency vtag) st1).core.volumeHandles
      = st.core.volumeHandles ++ [st.core.nextHandle] := by
    have := chwc "Volume" (by decide)
    unfold MoabCore.volumeHandles at *
    rw [this, hvh1]
  refine ⟨⟨?_, centLt, ccatLt, ccontLt, ?_, ?_, ?_, ?_⟩, ?_, hvh'⟩
  · calc (1 : Nat) ≤ st.core.nextHandle := hci.onelt
      _ ≤ st1.core.nextHandle := le_of_lt hlt
      _ ≤ _ := pnext
  · intro p hp
    rw [pgroups] at hp
    exact lt_of_lt_of_le (hgrp1 p hp) pnext
  · rw [pft, hft, hci.ftNil]
  · rw [hvh', List.length_append, hci.volLen]
    rfl
  · intro j hj
    rw [hvh']
    rcases Nat.lt_or_ge j k with hjk | hjk
    · have hjlen : j < st.core.volumeHandles.length := by rw [hci.volLen]; exact hjk
      rw [List.getD_append _ _ _ _ hjlen]
      have hmem : st.core.volumeHandles.getD j 0 ∈ st.core.volumeHandles := by
        rw [List.getD_eq_getElem _ _ hjlen]
        exact List.getElem_mem _
      have hlt2 : st.core.volumeHandles.getD j 0 < st.core.nextHandle :=
        hci.entLt _ (volumeHandles_sub_entities st.core _ hmem)
      rw [pgid _ (lt_trans hlt2 hlt), hgidpres _ hlt2]
      exact hci.gid j hjk
    · have hjeq : j = k := by omega
      subst hjeq
      rw [List.getD_append_right _ _ _ _ (by rw [hci.volLen])]
      rw [hci.volLen, Nat.sub_self]
      have : ([st.core.nextHandle].getD 0 0) = st.core.nextHandle := rfl
      rw [this, pgid _ hlt]
      exact hgid1
  · exact le_trans (le_of_lt hlt) pnext

lemma SurfInv_step (mesh : GmshMesh) (k : Nat) (st st' : BuildState)
    (hnd : MeshWF mesh)
    (hci : CoreInv k st) (hsi : SurfInv mesh k st)
    (hok : processVolume mesh k (mesh.volumes.getD k 0) st = .ok st') :
    SurfInv mesh (k + 1) st' := by
  have hg : (mesh.physicalGroups (mesh.volumes.getD k 0)).length = 1 := by
    by_contra hne
    obtain ⟨msg, hmsg⟩ := processVolume_of_bad_groups mesh k (mesh.volumes.getD k 0) st hne
    rw [hmsg] at hok
    cases hok
  obtain ⟨st1, heq, hks, hstl, hsense, hft, hlt, hent1, hcat1, hcont1, hgrp1,
    hvh1, hgid1, hgidpres⟩ :=
    processVolume_ok_elim mesh k (mesh.volumes.getD k 0) st hg
      hci.entLt hci.catLt hci.contLt hci.grpLt
  rw [heq] at hok
  obtain rfl := Except.ok.inj hok
  set S := mesh.adjacency (mesh.volumes.getD k 0) with hS
  set volH := st.core.nextHandle with hvolH
  have hsb1 : SurfBounds st1 := by
    constructor
    · intro t r hr
      rw [hks] at hr
      exact lt_trans (hsi.sb.bound t r hr) hlt
    · intro t t' r r' h1 h2
      rw [hks] at h1 h2
      exact hsi.sb.inj t t' r r' h1 h2
  obtain ⟨B, Kout, Sout, Knew, Kold, Fnew, Fout, Fold⟩ :=
    processSurfaces_spec k volH S st1 (hnd (mesh.volumes.getD k 0)) hsb1
  obtain ⟨centLt, ccatLt, ccontLt, chwc⟩ :=
    processSurfaces_cat k volH S st1 hent1 hcat1 hcont1
  have hvh' : (processSurfaces k volH S st1).core.volumeHandles
      = st.core.volumeHandles ++ [volH] := by
    have := chwc "Volume" (by decide)
    unfold MoabCore.volumeHandles at *
    rw [this, hvh1]
  have hvhlen : st.core.volumeHandles.length = k := hci.volLen
  have hvh'k : (st.core.volumeHandles ++ [volH]).getD k 0 = volH := by
    rw [List.getD_append_right _ _ _ _ (by rw [hvhlen])]
    rw [hvhlen, Nat.sub_self]
    rfl
  have hocc : ∀ t, occurrencesIn mesh (k + 1) t =
      occurrencesIn mesh k t ++ (if t ∈ S then [k] else []) := fun t =>
    occurrencesIn_succ mesh k t
  have hocc_none : ∀ t, lookup st.known_surfaces t = none → occurrencesIn mesh k t = [] := by
    intro t hl0
    by_contra hne
    have := (hsi.keys t).mpr hne
    rw [hl0] at this
    cases this
  have hocc_some : ∀ t r, lookup st.known_surfaces t = some r →
      occurrencesIn mesh k t ≠ [] := by
    intro t r hl0
    exact (hsi.keys t).mp (by rw [hl0]; rfl)
  constructor
  · exact B
  · -- keys
    intro t
    by_cases hts : t ∈ S
    · have hocc' : occurrencesIn mesh (k + 1) t ≠ [] := by
        rw [hocc t, if_pos hts]
        intro hcontra
        have := congrArg List.length hcontra
        rw [List.length_append] at this
        simp at this
      rcases hl0 : lookup st.known_surfaces t with _ | r0
      · obtain ⟨h, _, hrec, _⟩ := Knew t hts (by rw [hks]; exact hl0)
        rw [hrec]
        simp [hocc']
      · obtain ⟨hrec, _⟩ := Kold t r0 hts (by rw [hks]; exact hl0)
        rw [hrec]
        simp [hocc']
    · rw [Kout t hts, hks, hocc t, if_neg hts, List.append_nil]
      exact hsi.keys t
  · -- recs
    intro t r hr
    by_cases hts : t ∈ S
    · rcases hl0 : lookup st.known_surfaces t with _ | r0
      · obtain ⟨h, hge, hrec, hsen⟩ := Knew t hts (by rw [hks]; exact hl0)
        rw [hrec] at hr
        obtain rfl := Option.some.inj hr
        have hocc0 := hocc_none t hl0
        have hocc1 : occurrencesIn mesh (k + 1) t = [k] := by
          rw [hocc t, if_pos hts, hocc0]
          rfl
        refine ⟨?_, fun _ => rfl, ?_, ?_⟩
        · rw [hocc1, hvh']
          exact hvh'k.symm
        · intro h2
          rw [hocc1] at h2
          simp at h2
        · exact hsen
      · obtain ⟨hrec, hsen⟩ := Kold t r0 hts (by rw [hks]; exact hl0)
        rw [hrec] at hr
        obtain rfl := Option.some.inj hr
        have hocc0 := hocc_some t r0 hl0
        obtain ⟨hfwd0, _, _, _⟩ := hsi.recs t r0 hl0
        have hocc1 : occurrencesIn mesh (k + 1) t = occurrencesIn mesh k t ++ [k] := by
          rw [hocc t, if_pos hts]
        have hheadlt : (occurrencesIn mesh k t).headD 0 < k :=
          mem_occurrencesIn_lt (headD_mem _ 0 hocc0)
        have hheadlen : (occurrencesIn mesh k t).headD 0 < st.core.volumeHandles.length := by
          rw [hvhlen]; exact hheadlt
        refine ⟨?_, ?_, ?_, ?_⟩
        · show r0.forward_volume = _
          rw [hocc1, hvh', headD_append_of_ne_nil _ _ _ hocc0,
            List.getD_append _ _ _ _ hheadlen]
          exact hfwd0
        · intro h2
          exfalso
          rw [hocc1, List.length_append] at h2
          have hpos := List.length_pos.mpr hocc0
          simp only [List.length_singleton] at h2
          omega
        · intro _
          show volH = _
          rw [hocc1, hvh', List.getLastD_concat]
          exact hvh'k.symm
        · exact hsen
    · have hl1 : lookup st.known_surfaces t = some r := by
        rw [← hks, ← Kout t hts]
        exact hr
      obtain ⟨hfwd0, hrev1, hrev2, hsen0⟩ := hsi.recs t r hl1
      have hocc0 : occurrencesIn mesh k t ≠ [] := hocc_some t r hl1
      have hocc1 : occurrencesIn mesh (k + 1) t = occurrencesIn mesh k t := by
        rw [hocc t, if_neg hts, List.append_nil]
      have hsenpres : lookup (processSurfaces k volH S st1).core.surfSense r.handle =
          lookup st.core.surfSense r.handle := by
        rw [Sout t r hts (by rw [hks]; exact hl1), hsense]
      refine ⟨?_, ?_, ?_, ?_⟩
      · have hheadlen : (occurrencesIn mesh k t).headD 0 < st.core.volumeHandles.length := by
          rw [hvhlen]
          exact mem_occurrencesIn_lt (headD_mem _ 0 hocc0)
        rw [hocc1, hvh', List.getD_append _ _ _ _ hheadlen]
        exact hfwd0
      · intro h2
        rw [hocc1] at h2
        exact hrev1 h2
      · intro h2
        rw [hocc1] at h2
        have hlastlen : (occurrencesIn mesh k t).getLastD 0 < st.core.volumeHandles.length := by
          rw [hvhlen]
          exact mem_occurrencesIn_lt (getLastD_mem _ 0 hocc0)
        rw [hocc1, hvh', List.getD_append _ _ _ _ hlastlen]
        exact hrev2 h2
      · rw [hsenpres]
        exact hsen0
  · -- stl
    intro t
    by_cases hts : t ∈ S
    · rcases hl0 : lookup st.known_surfaces t with _ | r0
      · have hocc0 := hocc_none t hl0
        have hfe : (processSurfaces k volH S st1).stlImports.filter (fun p => p.1 == t) =
            st.stlImports.filter (fun p => p.1 == t) ++ [(t, k)] := by
          rw [Fnew t hts (by rw [hks]; exact hl0), hstl]
        rw [hfe, List.map_append, hsi.stl t, hocc0, hocc t, if_pos hts, hocc0]
        rfl
      · have hocc0 := hocc_some t r0 hl0
        have hfe : (processSurfaces k volH S st1).stlImports.filter (fun p => p.1 == t) =
            st.stlImports.filter (fun p => p.1 == t) := by
          rw [Fold t r0 hts (by rw [hks]; exact hl0), hstl]
        rw [hfe, hsi.stl t, hocc t, if_pos hts,
          List.take_append_of_le_length (by
            have := List.length_pos.mpr hocc0
            omega)]
    · have hfe : (processSurfaces k volH S st1).stlImports.filter (fun p => p.1 == t) =
          st.stlImports.filter (fun p => p.1 == t) := by
        rw [Fout t hts, hstl]
      rw [hfe, hsi.stl t, hocc t, if_neg hts, List.append_nil]

/-! ### The volume loop preserves the invariants -/

lemma processVolumes_nil (mesh : GmshMesh) (i : Nat) (st : BuildState) :
    processVolumes mesh i [] st = .ok st := rfl

lemma processVolumes_cons (mesh : GmshMesh) (i v : Nat) (vs : List Nat) (st : BuildState) :
    processVolumes mesh i (v :: vs) st =
      match processVolume mesh i v st with
      | .error e => .error e
      | .ok st1 => processVolumes mesh (i + 1) vs st1 := rfl

lemma getD_head_of_append {pre : List Nat} {v : Nat} {vs rest : List Nat}
    (hpre : rest = pre ++ v :: vs) : v = rest.getD pre.length 0 := by
  rw [hpre, List.getD_append_right _ _ _ _ (le_refl pre.length), Nat.sub_self]
  rfl

lemma processVolumes_coreInv (mesh : GmshMesh) :
    ∀ (vs pre : List Nat) (st st' : BuildState),
      mesh.volumes = pre ++ vs →
      CoreInv pre.length st →
      processVolumes mesh pre.length vs st = .ok st' →
      CoreInv mesh.volumes.length st' := by
  intro vs
  induction vs with
  | nil =>
    intro pre st st' hpre hci hok
    rw [processVolumes_nil] at hok
    obtain rfl := Except.ok.inj hok
    rw [hpre, List.append_nil]
    exact hci
  | cons v vs ih =>
    intro pre st st' hpre hci hok
    rw [processVolumes_cons] at hok
    rcases hstep : processVolume mesh pre.length v st with e | st1
    · rw [hstep] at hok
      cases hok
    · rw [hstep] at hok
      obtain ⟨hci1, _, _⟩ := CoreInv_step mesh pre.length v st st1 hci hstep
      have hpre' : mesh.volumes = (pre ++ [v]) ++ vs := by
        rw [hpre, List.append_assoc]
        rfl
      have hlen : (pre ++ [v]).length = pre.length + 1 := by simp
      exact ih (pre ++ [v]) st1 st' hpre' (by rw [hlen]; exact hci1) (by rw [hlen]; exact hok)

lemma processVolumes_surfInv (mesh : GmshMesh) (hnd : MeshWF mesh) :
    ∀ (vs pre : List Nat) (st st' : BuildState),
      mesh.volumes = pre ++ vs →
      CoreInv pre.length st → SurfInv mesh pre.length st →
      processVolumes mesh pre.length vs st = .ok st' →
      SurfInv mesh mesh.volumes.length st' := by
  intro vs
  induction vs with
  | nil =>
    intro pre st st' hpre hci hsi hok
    rw [processVolumes_nil] at hok
    obtain rfl := Except.ok.inj hok
    rw [hpre, List.append_nil]
    exact hsi
  | cons v vs ih =>
    intro pre st st' hpre hci hsi hok
    rw [processVolumes_cons] at hok
    rcases hstep : processVolume mesh pre.length v st with e | st1
    · rw [hstep] at hok
      cases hok
    · rw [hstep] at hok
      obtain ⟨hci1, _, _⟩ := CoreInv_step mesh pre.length v st st1 hci hstep
      have hv : v = mesh.volumes.getD pre.length 0 := getD_head_of_append hpre
      have hsi1 : SurfInv mesh (pre.length + 1) st1 :=
        SurfInv_step mesh pre.length st st1 hnd hci hsi (by rw [← hv]; exact hstep)
      have hpre' : mesh.volumes = (pre ++ [v]) ++ vs := by
        rw [hpre, List.append_assoc]
        rfl
      have hlen : (pre ++ [v]).length = pre.length + 1 := by simp
      exact ih (pre ++ [v]) st1 st' hpre' (by rw [hlen]; exact hci1)
        (by rw [hlen]; exact hsi1) (by rw [hlen]; exact hok)

lemma CoreInv_initial : CoreInv 0 initialBuildState :=
  ⟨le_refl 1,
   fun h hh => absurd hh (List.not_mem_nil h),
   fun p hp => absurd hp (List.not_mem_nil p),
   fun p hp => absurd hp (List.not_mem_nil p),
   fun p hp => absurd hp (List.not_mem_nil p),
   rfl, rfl,
   fun j hj => absurd hj (Nat.not_lt_zero j)⟩

lemma SurfInv_initial (mesh : GmshMesh) : SurfInv mesh 0 initialBuildState := by
  refine ⟨⟨?_, ?_⟩, ?_, ?_, ?_⟩
  · intro t r hr
    exact absurd hr (by simp [lookup, initialBuildState])
  · intro t t' r r' h1 h2 hh
    exact absurd h1 (by simp [lookup, initialBuildState])
  · intro t
    simp [lookup, initialBuildState, occurrencesIn_zero]
  · intro t r hr
    exact absurd hr (by simp [lookup, initialBuildState])
  · intro t
    rfl

/-! ### Finalization (lines 511-518) -/

lemma finalize_known (st : BuildState) :
    (finalizeModel st).known_surfaces = st.known_surfaces := rfl

lemma finalize_stl (st : BuildState) :
    (finalizeModel st).stlImports = st.stlImports := rfl

lemma finalize_sense (st : BuildState) :
    (finalizeModel st).core.surfSense = st.core.surfSense := rfl

lemma finalize_globalId (st : BuildState) :
    (finalizeModel st).core.globalId = st.core.globalId := rfl

lemma finalize_next (st : BuildState) :
    (finalizeModel st).core.nextHandle = st.core.nextHandle + 1 := rfl

lemma finalize_entities (st : BuildState) :
    (finalizeModel st).core.entities = st.core.entities ++ [st.core.nextHandle] := rfl

lemma finalize_facetingTol (st : BuildState) (hft : st.core.facetingTol = []) :
    (finalizeModel st).core.facetingTol = [(st.core.nextHandle, (1 : Rat) / 1000)] := by
  show tagSet st.core.facetingTol st.core.nextHandle ((1 : Rat) / 1000) = _
  rw [hft]
  rfl

lemma finalize_volumeHandles (st : BuildState)
    (hcat : ∀ p ∈ st.core.category, p.1 < st.core.nextHandle) :
    (finalizeModel st).core.volumeHandles = st.core.volumeHandles := by
  unfold MoabCore.volumeHandles MoabCore.handlesWithCategory
  rw [show (finalizeModel st).core.category = st.core.category from rfl,
    finalize_entities, List.filter_append]
  have h1 : List.filter (fun h => lookup st.core.category h == some "Volume")
      [st.core.nextHandle] = [] := by
    simp [List.filter, lookup_eq_none_of_keys_lt hcat (le_refl _)]
  rw [h1, List.append_nil]

lemma finalize_file_contents (st : BuildState)
    (hcont : ∀ p ∈ st.core.contents, p.1 < st.core.nextHandle)
    (honelt : 1 ≤ st.core.nextHandle) :
    (finalizeModel st).core.get_entities_by_handle st.core.nextHandle =
      st.core.entities := by
  unfold MoabCore.get_entities_by_handle
  rw [if_neg (by simp; omega)]
  rw [show (finalizeModel st).core.contents =
    st.core.contents ++ st.core.entities.map (fun m => (st.core.nextHandle, m)) from rfl]
  rw [List.filter_append]
  have h1 : st.core.contents.filter (fun p => p.1 == st.core.nextHandle) = [] := by
    rw [List.filter_eq_nil_iff]
    intro p hp
    have := hcont p hp
    simp
    omega
  have h2 : (st.core.entities.map (fun m => (st.core.nextHandle, m))).filter
      (fun p => p.1 == st.core.nextHandle) =
      st.core.entities.map (fun m => (st.core.nextHandle, m)) := by
    rw [List.filter_map]
    rw [show ((fun p => p.1 == st.core.nextHandle) ∘
        (fun m => ((st.core.nextHandle, m) : Nat × Nat))) = (fun m => true) from
      funext (fun m => by simp), List.filter_true]
  rw [h1, h2, List.nil_append, List.map_map]
  rw [show ((fun p => p.2) ∘ (fun m => ((st.core.nextHandle, m) : Nat × Nat))) =
    id from funext (fun m => rfl), List.map_id]

/-! ### Dissection of a successful full build -/

lemma make_from_mesh_state_elim (mesh : GmshMesh) (st' : BuildState)
    (hok : make_from_mesh_state mesh = .ok st') :
    ∃ stN, processVolumes mesh 0 mesh.volumes initialBuildState = .ok stN ∧
      st' = finalizeModel stN ∧
      CoreInv mesh.volumes.length stN := by
  unfold make_from_mesh_state at hok
  rcases hN : processVolumes mesh 0 mesh.volumes initialBuildState with e | stN
  · rw [hN] at hok
    cases hok
  · rw [hN] at hok
    simp only [Except.map] at hok
    refine ⟨stN, rfl, (Except.ok.inj hok).symm, ?_⟩
    have h0 : mesh.volumes = ([] : List Nat) ++ mesh.volumes := rfl
    exact processVolumes_coreInv mesh mesh.volumes [] initialBuildState stN h0
      CoreInv_initial hN

lemma make_from_mesh_state_elim_surf (mesh : GmshMesh) (hnd : MeshWF mesh)
    (st' : BuildState) (hok : make_from_mesh_state mesh = .ok st') :
    ∃ stN, processVolumes mesh 0 mesh.volumes initialBuildState = .ok stN ∧
      st' = finalizeModel stN ∧
      CoreInv mesh.volumes.length stN ∧
      SurfInv mesh mesh.volumes.length stN := by
  obtain ⟨stN, hN, hfin, hci⟩ := make_from_mesh_state_elim mesh st' hok
  refine ⟨stN, hN, hfin, hci, ?_⟩
  have h0 : mesh.volumes = ([] : List Nat) ++ mesh.volumes := rfl
  exact processVolumes_surfInv mesh hnd mesh.volumes [] initialBuildState stN h0
    CoreInv_initial (SurfInv_initial mesh) hN

/-! ### Example meshes for concrete instantiation -/

/-- Example mesh: one volume (tag 1) bounded by one surface (tag 1), in
physical group 4 named "mat:iron" (the single-sphere scenario). -/
def exMesh1 : GmshMesh :=
  { volumes := [1], adjacency := fun _ => [1],
    physicalGroups := fun _ => [4], physicalName := fun _ => "mat:iron" }

/-- Example mesh: three volumes (tags 1, 2, 3) all adjacent to surface tag 1,
so the surface tag occurs three times (an inconsistent adjacency). -/
def exMesh3 : GmshMesh :=
  { volumes := [1, 2, 3], adjacency := fun _ => [1],
    physicalGroups := fun _ => [7], physicalName := fun _ => "mat:iron" }

/-- Example mesh whose volume belongs to zero physical groups. -/
def exMeshBad : GmshMesh :=
  { volumes := [1], adjacency := fun _ => [1],
    physicalGroups := fun _ => [], physicalName := fun _ => "mat:iron" }

/-- The build state produced from exMesh1. -/
def exSt1 : BuildState :=
  (make_from_mesh_state exMesh1).toOption.getD initialBuildState

/-- The build state produced from exMesh3. -/
def exSt3 : BuildState :=
  (make_from_mesh_state exMesh3).toOption.getD initialBuildState

/-- The model produced from exMesh1. -/
def exModel1 : MOABModel :=
  (make_from_mesh exMesh1).toOption.getD { core := {} }

/-! ### The claims -/

/-- C1: for every model built by make_from_mesh (well-formed adjacency lists,
internal pass state exposed), a Surface entity was created exactly for the
surface tags occurring in some volume's adjacency; the surf_sense tag of
each such Surface holds the complete pair [forward_volume, reverse_volume]
written both slots at once; forward_volume is the volume handle of the first
mesh-order volume adjacent to that surface; reverse_volume is unset (0) when
the surface is adjacent to exactly one volume, and the second mesh-order
adjacent volume's handle when it is adjacent to exactly two. -/
theorem C1_surf_sense_complete_pair (mesh : GmshMesh) (hnd : MeshWF mesh)
    (st' : BuildState) (hok : make_from_mesh_state mesh = .ok st') :
    (∀ t, (lookup st'.known_surfaces t).isSome = true ↔ surfaceOccurrences mesh t ≠ []) ∧
    (∀ t r, lookup st'.known_surfaces t = some r →
      lookup st'.core.surfSense r.handle = some [r.forward_volume, r.reverse_volume] ∧
      r.forward_volume =
        st'.core.volumeHandles.getD ((surfaceOccurrences mesh t).headD 0) 0 ∧
      ((surfaceOccurrences mesh t).length = 1 → r.reverse_volume = 0) ∧
      ((surfaceOccurrences mesh t).length = 2 →
        r.reverse_volume =
          st'.core.volumeHandles.getD ((surfaceOccurrences mesh t).getD 1 0) 0)) := by
  simp only [surfaceOccurrences]
  obtain ⟨stN, hN, hfin, hci, hsi⟩ := make_from_mesh_state_elim_surf mesh hnd st' hok
  subst hfin
  constructor
  · intro t
    rw [finalize_known]
    exact hsi.keys t
  · intro t r hr
    rw [finalize_known] at hr
    obtain ⟨hfwd, hrev1, hrev2, hsen⟩ := hsi.recs t r hr
    have hvh := finalize_volumeHandles stN hci.catLt
    refine ⟨?_, ?_, ?_, ?_⟩
    · rw [finalize_sense]
      exact hsen
    · rw [hvh]
      exact hfwd
    · intro h1
      exact hrev1 (by omega)
    · intro h2
      rw [hvh, ← length_two_getLastD h2 0]
      exact hrev2 (by omega)

/-- C1 witness: the single-sphere mesh, surface tag 1. -/
theorem C1_witness :
    (lookup exSt1.known_surfaces 1).isSome = true ↔ surfaceOccurrences exMesh1 1 ≠ [] :=
  (C1_surf_sense_complete_pair exMesh1 (fun _ => (by decide : List.Nodup [1]))
    exSt1 rfl).1 1

/-- C2 counterexample: with surface tag 1 adjacent to all three volumes,
make_from_mesh succeeds (it raises no MalformedAdjacency; no such check
exists in the code) and the third encounter overwrote reverse_volume with
the third volume's handle 6, clobbering the previously recorded second
volume's handle 5. The volume handles are [1, 5, 6] in mesh order. -/
theorem C2_counterexample :
    (make_from_mesh_state exMesh3).map (fun st => lookup st.known_surfaces 1) =
      .ok (some { handle := 3, forward_volume := 1, reverse_volume := 6 }) ∧
    (make_from_mesh_state exMesh3).map (fun st => st.core.volumeHandles) =
      .ok [1, 5, 6] :=
  ⟨rfl, rfl⟩

/-- C2 amended: make_from_mesh does not fail when a surface tag occurs in
more than two volumes' adjacency lists; instead, every encounter after the
first overwrites reverse_volume, so whenever a tag occurs in two or more
volumes the recorded reverse_volume is the handle of the LAST mesh-order
volume adjacent to it. -/
theorem C2_amended_reverse_overwritten (mesh : GmshMesh) (hnd : MeshWF mesh)
    (st' : BuildState) (hok : make_from_mesh_state mesh = .ok st') :
    ∀ t r, lookup st'.known_surfaces t = some r →
      2 ≤ (surfaceOccurrences mesh t).length →
      r.reverse_volume =
        st'.core.volumeHandles.getD ((surfaceOccurrences mesh t).getLastD 0) 0 := by
  simp only [surfaceOccurrences]
  obtain ⟨stN, hN, hfin, hci, hsi⟩ := make_from_mesh_state_elim_surf mesh hnd st' hok
  subst hfin
  intro t r hr h2
  rw [finalize_known] at hr
  obtain ⟨_, _, hrev2, _⟩ := hsi.recs t r hr
  rw [finalize_volumeHandles stN hci.catLt]
  exact hrev2 h2

/-- C2 witness: on the three-volume mesh the final reverse_volume of surface
tag 1 is the last volume's handle. -/
theorem C2_witness :
    (⟨3, 1, 6⟩ : _Surface).reverse_volume =
      exSt3.core.volumeHandles.getD ((surfaceOccurrences exMesh3 1).getLastD 0) 0 :=
  C2_amended_reverse_overwritten exMesh3 (fun _ => (by decide : List.Nodup [1]))
    exSt3 rfl 1 ⟨3, 1, 6⟩ rfl (by decide)

lemma processVolume_ok_of_good (mesh : GmshMesh) (i vtag : Nat) (st : BuildState)
    (hg : (mesh.physicalGroups vtag).length = 1) :
    ∃ st1, processVolume mesh i vtag st = .ok st1 := by
  simp only [processVolume]
  rw [if_neg (by omega)]
  rcases hgl : lookup st.known_groups ((mesh.physicalGroups vtag).getD 0 0) with _ | gs <;>
    exact ⟨_, rfl⟩

lemma processVolumes_ok_iff (mesh : GmshMesh) :
    ∀ (vs : List Nat) (i : Nat) (st : BuildState),
      (∃ st', processVolumes mesh i vs st = .ok st') ↔
        ∀ v ∈ vs, (mesh.physicalGroups v).length = 1 := by
  intro vs
  induction vs with
  | nil =>
    intro i st
    simp [processVolumes_nil]
  | cons v vs ih =>
    intro i st
    rw [processVolumes_cons]
    by_cases hg : (mesh.physicalGroups v).length = 1
    · obtain ⟨st1, hst1⟩ := processVolume_ok_of_good mesh i v st hg
      rw [hst1]
      show (∃ st', processVolumes mesh (i + 1) vs st1 = .ok st') ↔ _
      constructor
      · rintro ⟨st', h'⟩ u hu
        rcases List.mem_cons.mp hu with rfl | hu'
        · exact hg
        · exact ((ih (i + 1) st1).mp ⟨st', h'⟩) u hu'
      · intro hall
        exact (ih (i + 1) st1).mpr (fun u hu => hall u (List.mem_cons_of_mem v hu))
    · obtain ⟨msg, hmsg⟩ := processVolume_of_bad_groups mesh i v st hg
      rw [hmsg]
      show (∃ st', (Except.error (PyError.valueError msg) : Except PyError BuildState)
        = .ok st') ↔ _
      constructor
      · rintro ⟨st', h'⟩
        cases h'
      · intro hall
        exact absurd (hall v (List.mem_cons_self v vs)) hg

/-- C3: make_from_mesh fails (returns an error and no model) exactly when
some volume of the mesh belongs to a number of physical groups different
from 1; when every volume belongs to exactly one physical group no such
error is raised. -/
theorem C3_error_iff_bad_material (mesh : GmshMesh) :
    (∃ e, make_from_mesh mesh = .error e) ↔
      ∃ v ∈ mesh.volumes, (mesh.physicalGroups v).length ≠ 1 := by
  have hiff := processVolumes_ok_iff mesh mesh.volumes 0 initialBuildState
  constructor
  · rintro ⟨e, he⟩
    by_contra hno
    push_neg at hno
    obtain ⟨st', hst'⟩ := hiff.mpr hno
    unfold make_from_mesh make_from_mesh_state at he
    rw [hst'] at he
    simp [Except.map] at he
  · rintro ⟨v, hv, hvg⟩
    rcases hmk : make_from_mesh mesh with e | m
    · exact ⟨e, rfl⟩
    · exfalso
      unfold make_from_mesh make_from_mesh_state at hmk
      rcases hN : processVolumes mesh 0 mesh.volumes initialBuildState with e' | stN
      · rw [hN] at hmk
        simp [Except.map] at hmk
      · exact absurd (hiff.mp ⟨stN, hN⟩ v hv) hvg

/-- C3 witness: a mesh whose volume belongs to zero physical groups makes
the build fail; the single-sphere mesh builds without error. -/
theorem C3_witness :
    (∃ e, make_from_mesh exMeshBad = .error e) ∧
      ¬∃ e, make_from_mesh exMesh1 = .error e :=
  ⟨(C3_error_iff_bad_material exMeshBad).mpr ⟨1, by decide, by decide⟩,
   fun hcontra => by
    have := (C3_error_iff_bad_material exMesh1).mp hcontra
    revert this
    decide⟩

/-- C4: a successful build creates exactly N Volume entities (N the number
of mesh volumes) and the entity at 0-based position j in mesh-supplied order
carries global_id j, so the global_id values are exactly 0..N-1 in order. -/
theorem C4_volume_global_ids (mesh : GmshMesh) (st' : BuildState)
    (hok : make_from_mesh_state mesh = .ok st') :
    st'.core.volumeHandles.length = mesh.volumes.length ∧
    ∀ j, j < mesh.volumes.length →
      lookup st'.core.globalId (st'.core.volumeHandles.getD j 0) = some j := by
  obtain ⟨stN, hN, hfin, hci⟩ := make_from_mesh_state_elim mesh st' hok
  subst hfin
  have hvh := finalize_volumeHandles stN hci.catLt
  constructor
  · rw [hvh]
    exact hci.volLen
  · intro j hj
    rw [hvh, finalize_globalId]
    exact hci.gid j hj

/-- C4 witness: the single-sphere build has exactly one Volume entity, with
global_id 0. -/
theorem C4_witness :
    exSt1.core.volumeHandles.length = exMesh1.volumes.length ∧
    lookup exSt1.core.globalId (exSt1.core.volumeHandles.getD 0 0) = some 0 :=
  ⟨(C4_volume_global_ids exMesh1 exSt1 rfl).1,
   (C4_volume_global_ids exMesh1 exSt1 rfl).2 0 (by decide)⟩

lemma mem_get_child_iff (c : MoabCore) (hv hs : Nat) :
    hs ∈ c.get_child_meshsets hv ↔ (hv, hs) ∈ c.parentChild := by
  unfold MoabCore.get_child_meshsets
  rw [List.mem_map]
  constructor
  · rintro ⟨p, hp, rfl⟩
    obtain ⟨hmem, hbeq⟩ := List.mem_filter.mp hp
    have hp1 : p.1 = hv := by simpa using hbeq
    rw [← hp1]
    exact hmem
  · intro hmem
    exact ⟨(hv, hs), List.mem_filter.mpr ⟨hmem, by simp⟩, rfl⟩

lemma mem_get_parent_iff (c : MoabCore) (hv hs : Nat) :
    hv ∈ c.get_parent_meshsets hs ↔ (hv, hs) ∈ c.parentChild := by
  unfold MoabCore.get_parent_meshsets
  rw [List.mem_map]
  constructor
  · rintro ⟨p, hp, rfl⟩
    obtain ⟨hmem, hbeq⟩ := List.mem_filter.mp hp
    have hp2 : p.2 = hs := by simpa using hbeq
    rw [← hp2]
    exact hmem
  · intro hmem
    exact ⟨(hv, hs), List.mem_filter.mpr ⟨hmem, by simp⟩, rfl⟩

/-- C5: in the model returned by make_from_mesh, the adjacency accessors are
mutually consistent: a surface handle is among a volume handle's
adjacent_surfaces exactly when the volume handle is among the surface
handle's adjacent_volumes (both read back the same parent/child relation). -/
theorem C5_adjacency_roundtrip (mesh : GmshMesh) (m : MOABModel)
    (hok : make_from_mesh mesh = .ok m) (hv hs : Nat) :
    hs ∈ MOABVolume.adjacent_surfaces m.core hv ↔
      hv ∈ MOABSurface.adjacent_volumes m.core hs := by
  unfold MOABVolume.adjacent_surfaces MOABSurface.adjacent_volumes
  rw [mem_get_child_iff, mem_get_parent_iff]

/-- C5 witness: the single-sphere model, volume handle 1 and surface
handle 3. -/
theorem C5_witness :
    3 ∈ MOABVolume.adjacent_surfaces exModel1.core 1 ↔
      1 ∈ MOABSurface.adjacent_volumes exModel1.core 3 :=
  C5_adjacency_roundtrip exMesh1 exModel1 rfl 1 3

/-- C6: in a successful build the facet export/re-import trace contains, for
every surface tag, exactly the first mesh-order occurrence of that tag:
facets are imported exactly once, in the iteration where the tag is first
encountered, and never again for later volumes referencing the same tag. -/
theorem C6_facets_imported_once (mesh : GmshMesh) (hnd : MeshWF mesh)
    (st' : BuildState) (hok : make_from_mesh_state mesh = .ok st') :
    ∀ t, (st'.stlImports.filter (fun p => p.1 == t)).map (fun p => p.2) =
      (surfaceOccurrences mesh t).take 1 := by
  simp only [surfaceOccurrences]
  obtain ⟨stN, hN, hfin, hci, hsi⟩ := make_from_mesh_state_elim_surf mesh hnd st' hok
  subst hfin
  intro t
  rw [finalize_stl]
  exact hsi.stl t

/-- C6 witness: on the three-volume mesh, surface tag 1 is imported exactly
once, at volume index 0. -/
theorem C6_witness :
    (exSt3.stlImports.filter (fun p => p.1 == 1)).map (fun p => p.2) =
      (surfaceOccurrences exMesh3 1).take 1 :=
  C6_facets_imported_once exMesh3 (fun _ => (by decide : List.Nodup [1])) exSt3 rfl 1

/-- C7: in a volume step of the build whose volume belongs to the single
physical group g whose gmsh name is "mat:" ++ label, the step succeeds and:
if a Group entity was already created for g in this pass it is reused (no
new Group-category entity appears, the group dictionary is unchanged) and
the volume meshset is added to it by the membership relation; otherwise a
new Group meshset is created, tagged category "Group", name "mat:" ++ label
and global_id g, recorded in the group dictionary, and the volume meshset is
added to it by the membership relation. -/
theorem C7_group_reuse_or_create (mesh : GmshMesh) (i vtag g : Nat) (label : String)
    (st : BuildState)
    (hent : ∀ h ∈ st.core.entities, h < st.core.nextHandle)
    (hcat : ∀ p ∈ st.core.category, p.1 < st.core.nextHandle)
    (hcont : ∀ p ∈ st.core.contents, p.1 < st.core.nextHandle)
    (hgrp : ∀ p ∈ st.known_groups, p.2 < st.core.nextHandle)
    (hg : mesh.physicalGroups vtag = [g])
    (hname : mesh.physicalName g = "mat:" ++ label) :
    ∃ st', processVolume mesh i vtag st = .ok st' ∧
      (∀ gs, lookup st.known_groups g = some gs →
        st'.known_groups = st.known_groups ∧
        (gs, st.core.nextHandle) ∈ st'.core.contents ∧
        st'.core.handlesWithCategory "Group" = st.core.handlesWithCategory "Group") ∧
      (lookup st.known_groups g = none →
        ∃ gs, lookup st'.known_groups g = some gs ∧
          lookup st'.core.category gs = some "Group" ∧
          lookup st'.core.nameData gs = some ("mat:" ++ label) ∧
          lookup st'.core.globalId gs = some g ∧
          (gs, st.core.nextHandle) ∈ st'.core.contents ∧
          st'.core.handlesWithCategory "Group" =
            st.core.handlesWithCategory "Group" ++ [gs]) := by
  have hlen : (mesh.physicalGroups vtag).length = 1 := by rw [hg]; rfl
  have hgd : (mesh.physicalGroups vtag).getD 0 0 = g := by rw [hg]; rfl
  have hbVG : ((some "Volume" : Option String) == some "Group") = false := by decide
  rcases hgl : lookup st.known_groups g with _ | gs
  · -- group id not seen: create
    refine ⟨processSurfaces i st.core.nextHandle (mesh.adjacency vtag)
      { st with
        core := { st.core with
          nextHandle := st.core.nextHandle + 2,
          entities := st.core.entities ++ [st.core.nextHandle] ++ [st.core.nextHandle + 1],
          globalId := tagSet (tagSet st.core.globalId st.core.nextHandle i)
            (st.core.nextHandle + 1) g,
          geomDimension := tagSet st.core.geomDimension st.core.nextHandle 3,
          category := tagSet (tagSet st.core.category st.core.nextHandle "Volume")
            (st.core.nextHandle + 1) "Group",
          nameData := tagSet st.core.nameData (st.core.nextHandle + 1)
            (mesh.physicalName g),
          contents := st.core.contents ++ [(st.core.nextHandle + 1, st.core.nextHandle)] },
        known_groups := st.known_groups ++ [(g, st.core.nextHandle + 1)] },
      ?_, ?_, ?_⟩
    · simp only [processVolume]
      rw [if_neg (by omega), hgd, hgl]
      rfl
    · intro gs0 hcontra
      cases hcontra
    · intro _
      set ST1 : BuildState :=
        { st with
          core := { st.core with
            nextHandle := st.core.nextHandle + 2,
            entities := st.core.entities ++ [st.core.nextHandle] ++ [st.core.nextHandle + 1],
            globalId := tagSet (tagSet st.core.globalId st.core.nextHandle i)
              (st.core.nextHandle + 1) g,
            geomDimension := tagSet st.core.geomDimension st.core.nextHandle 3,
            category := tagSet (tagSet st.core.category st.core.nextHandle "Volume")
              (st.core.nextHandle + 1) "Group",
            nameData := tagSet st.core.nameData (st.core.nextHandle + 1)
              (mesh.physicalName g),
            contents := st.core.contents ++ [(st.core.nextHandle + 1, st.core.nextHandle)] },
          known_groups := st.known_groups ++ [(g, st.core.nextHandle + 1)] } with hST1
      have hent1 : ∀ h ∈ ST1.core.entities, h < ST1.core.nextHandle := by
        rw [hST1]
        dsimp only
        intro h hh
        simp only [List.mem_append, List.mem_singleton] at hh
        rcases hh with (hh | hh) | hh
        · exact lt_trans (hent h hh) (by omega)
        · omega
        · omega
      have hcat1 : ∀ p ∈ ST1.core.category, p.1 < ST1.core.nextHandle := by
        rw [hST1]
        dsimp only
        intro p hp
        simp only [tagSet, List.mem_cons] at hp
        rcases hp with hp | hp | hp
        · rw [hp]; simp
        · rw [hp]; simp
        · exact lt_trans (hcat p hp) (by omega)
      have hcont1 : ∀ p ∈ ST1.core.contents, p.1 < ST1.core.nextHandle := by
        rw [hST1]
        dsimp only
        intro p hp
        simp only [List.mem_append, List.mem_singleton] at hp
        rcases hp with hp | hp
        · exact lt_trans (hcont p hp) (by omega)
        · rw [hp]; simp
      obtain ⟨pnext, pgroups, pft, pname, pcont, pgid, pcat⟩ :=
        processSurfaces_pres i st.core.nextHandle (mesh.adjacency vtag) ST1
      obtain ⟨centLt, ccatLt, ccontLt, chwc⟩ :=
        processSurfaces_cat i st.core.nextHandle (mesh.adjacency vtag) ST1
          hent1 hcat1 hcont1
      have hnext1 : ST1.core.nextHandle = st.core.nextHandle + 2 := by rw [hST1]
      refine ⟨st.core.nextHandle + 1, ?_, ?_, ?_, ?_, ?_, ?_⟩
      · rw [pgroups, hST1]
        dsimp only
        rw [lookup_concat_none hgl, lookup_singleton_self]
      · rw [pcat _ (by omega)]
        rw [hST1]
        dsimp only
        exact lookup_tagSet_self _ _ _
      · rw [pname, hST1]
        dsimp only
        rw [lookup_tagSet_self]
        rw [hname]
      · rw [pgid _ (by omega)]
        rw [hST1]
        dsimp only
        exact lookup_tagSet_self _ _ _
      · refine pcont _ ?_
        rw [hST1]
        dsimp only
        exact List.mem_append_right _ (List.mem_singleton.mpr rfl)
      · rw [chwc "Group" (by decide)]
        rw [hST1]
        unfold MoabCore.handlesWithCategory
        dsimp only
        rw [List.filter_append, List.filter_append]
        have e1 : List.filter (fun h =>
            lookup (tagSet (tagSet st.core.category st.core.nextHandle "Volume")
              (st.core.nextHandle + 1) "Group") h == some "Group") st.core.entities =
            List.filter (fun h => lookup st.core.category h == some "Group")
              st.core.entities := by
          refine List.filter_congr (fun h hh => ?_)
          have hlt := hent h hh
          rw [lookup_tagSet_ne _ _ _ _ (by omega), lookup_tagSet_ne _ _ _ _ (by omega)]
        have e2 : List.filter (fun h =>
            lookup (tagSet (tagSet st.core.category st.core.nextHandle "Volume")
              (st.core.nextHandle + 1) "Group") h == some "Group")
            [st.core.nextHandle] = [] := by
          have hl2 : lookup (tagSet (tagSet st.core.category st.core.nextHandle "Volume")
              (st.core.nextHandle + 1) "Group") st.core.nextHandle = some "Volume" := by
            rw [lookup_tagSet_ne _ _ _ _ (by omega), lookup_tagSet_self]
          simp [List.filter, hl2, hbVG]
        have e3 : List.filter (fun h =>
            lookup (tagSet (tagSet st.core.category st.core.nextHandle "Volume")
              (st.core.nextHandle + 1) "Group") h == some "Group")
            [st.core.nextHandle + 1] = [st.core.nextHandle + 1] := by
          simp [List.filter, lookup_tagSet_self]
        rw [e1, e2, e3, List.append_nil]
  · -- group id seen: reuse
    have hgs : gs < st.core.nextHandle := by
      obtain ⟨q, hq, hq2⟩ := lookup_mem hgl
      have := hgrp q hq
      omega
    refine ⟨processSurfaces i st.core.nextHandle (mesh.adjacency vtag)
      { st with
        core := { st.core with
          nextHandle := st.core.nextHandle + 1,
          entities := st.core.entities ++ [st.core.nextHandle],
          globalId := tagSet st.core.globalId st.core.nextHandle i,
          geomDimension := tagSet st.core.geomDimension st.core.nextHandle 3,
          category := tagSet st.core.category st.core.nextHandle "Volume",
          contents := st.core.contents ++ [(gs, st.core.nextHandle)] } },
      ?_, ?_, ?_⟩
    · simp only [processVolume]
      rw [if_neg (by omega), hgd, hgl]
      rfl
    · intro gs0 hgs0
      obtain rfl := Option.some.inj hgs0
      set ST1 : BuildState :=
        { st with
          core := { st.core with
            nextHandle := st.core.nextHandle + 1,
            entities := st.core.entities ++ [st.core.nextHandle],
            globalId := tagSet st.core.globalId st.core.nextHandle i,
            geomDimension := tagSet st.core.geomDimension st.core.nextHandle 3,
            category := tagSet st.core.category st.core.nextHandle "Volume",
            contents := st.core.contents ++ [(gs, st.core.nextHandle)] } } with hST1
      have hent1 : ∀ h ∈ ST1.core.entities, h < ST1.core.nextHandle := by
        rw [hST1]
        dsimp only
        intro h hh
        simp only [List.mem_append, List.mem_singleton] at hh
        rcases hh with hh | hh
        · exact lt_trans (hent h hh) (by omega)
        · omega
      have hcat1 : ∀ p ∈ ST1.core.category, p.1 < ST1.core.nextHandle := by
        rw [hST1]
        dsimp only
        intro p hp
        simp only [tagSet, List.mem_cons] at hp
        rcases hp with hp | hp
        · rw [hp]; simp
        · exact lt_trans (hcat p hp) (by omega)
      have hcont1 : ∀ p ∈ ST1.core.contents, p.1 < ST1.core.nextHandle := by
        rw [hST1]
        dsimp only
        intro p hp
        simp only [List.mem_append, List.mem_singleton] at hp
        rcases hp with hp | hp
        · exact lt_trans (hcont p hp) (by omega)
        · rw [hp]
          dsimp only
          omega
      obtain ⟨pnext, pgroups, pft, pname, pcont, pgid, pcat⟩ :=
        processSurfaces_pres i st.core.nextHandle (mesh.adjacency vtag) ST1
      obtain ⟨centLt, ccatLt, ccontLt, chwc⟩ :=
        processSurfaces_cat i st.core.nextHandle (mesh.adjacency vtag) ST1
          hent1 hcat1 hcont1
      refine ⟨?_, ?_, ?_⟩
      · rw [pgroups, hST1]
      · refine pcont _ ?_
        rw [hST1]
        dsimp only
        exact List.mem_append_right _ (List.mem_singleton.mpr rfl)
      · rw [chwc "Group" (by decide)]
        rw [hST1]
        unfold MoabCore.handlesWithCategory
        dsimp only
        rw [List.filter_append]
        have e1 : List.filter (fun h =>
            lookup (tagSet st.core.category st.core.nextHandle "Volume") h == some "Group")
              st.core.entities =
            List.filter (fun h => lookup st.core.category h == some "Group")
              st.core.entities := by
          refine List.filter_congr (fun h hh => ?_)
          have hlt := hent h hh
          rw [lookup_tagSet_ne _ _ _ _ (by omega)]
        have e2 : List.filter (fun h =>
            lookup (tagSet st.core.category st.core.nextHandle "Volume") h == some "Group")
            [st.core.nextHandle] = [] := by
          simp [List.filter, lookup_tagSet_self, hbVG]
        rw [e1, e2, List.append_nil]
    · intro hcontra
      cases hcontra

/-- C7 witness: the first volume of the single-sphere mesh, processed from a
fresh build state, creates the Group entity for group id 4 with name
"mat:iron". -/
theorem C7_witness :
    ∃ st', processVolume exMesh1 0 1 initialBuildState = .ok st' ∧
      (∀ gs, lookup initialBuildState.known_groups 4 = some gs →
        st'.known_groups = initialBuildState.known_groups ∧
        (gs, initialBuildState.core.nextHandle) ∈ st'.core.contents ∧
        st'.core.handlesWithCategory "Group" =
          initialBuildState.core.handlesWithCategory "Group") ∧
      (lookup initialBuildState.known_groups 4 = none →
        ∃ gs, lookup st'.known_groups 4 = some gs ∧
          lookup st'.core.category gs = some "Group" ∧
          lookup st'.core.nameData gs = some ("mat:" ++ "iron") ∧
          lookup st'.core.globalId gs = some 4 ∧
          (gs, initialBuildState.core.nextHandle) ∈ st'.core.contents ∧
          st'.core.handlesWithCategory "Group" =
            initialBuildState.core.handlesWithCategory "Group" ++ [gs]) :=
  C7_group_reuse_or_create exMesh1 0 1 4 "iron" initialBuildState
    (fun h hh => absurd hh (List.not_mem_nil h))
    (fun p hp => absurd hp (List.not_mem_nil p))
    (fun p hp => absurd hp (List.not_mem_nil p))
    (fun p hp => absurd hp (List.not_mem_nil p))
    rfl rfl

/-- C8: after all volumes are processed a successful build creates exactly
one further entity, the file-level set: the final entity list is the loop's
entity list plus that one handle; it is the only entity carrying the
faceting_tol tag; the tag value is the fixed constant 1/1000 (1e-3) for
every mesh, independent of any resolution; and the full collection of
entities present in the store (get_entities_by_handle 0, taken before the
file set was created) is attached to the file set. -/
theorem C8_file_entity (mesh : GmshMesh) (st' : BuildState)
    (hok : make_from_mesh_state mesh = .ok st') :
    ∃ stN fs, processVolumes mesh 0 mesh.volumes initialBuildState = .ok stN ∧
      st' = finalizeModel stN ∧
      fs = stN.core.nextHandle ∧
      st'.core.entities = stN.core.entities ++ [fs] ∧
      st'.core.facetingTol = [(fs, (1 : Rat) / 1000)] ∧
      st'.core.get_entities_by_handle fs = stN.core.get_entities_by_handle 0 := by
  obtain ⟨stN, hN, hfin, hci⟩ := make_from_mesh_state_elim mesh st' hok
  subst hfin
  refine ⟨stN, stN.core.nextHandle, hN, rfl, rfl, finalize_entities stN,
    finalize_facetingTol stN hci.ftNil, ?_⟩
  rw [finalize_file_contents stN hci.contLt hci.onelt]
  rfl

/-- C8 witness: the single-sphere build. -/
theorem C8_witness :
    ∃ stN fs, processVolumes exMesh1 0 exMesh1.volumes initialBuildState = .ok stN ∧
      exSt1 = finalizeModel stN ∧
      fs = stN.core.nextHandle ∧
      exSt1.core.entities = stN.core.entities ++ [fs] ∧
      exSt1.core.facetingTol = [(fs, (1 : Rat) / 1000)] ∧
      exSt1.core.get_entities_by_handle fs = stN.core.get_entities_by_handle 0 :=
  C8_file_entity exMesh1 exSt1 rfl

/-- C9: every session-acquiring operation (entering the Mesh context for a
build, mesh generation, file write, render) finalizes the gmsh session on
every exit path: the final session state has initialized = false whatever
the input data, whatever the prior session state, and whether or not the
body raised an error (the exit of the with-block is unconditional); render
additionally finalizes the fltk subsystem. -/
theorem C9_session_always_released (mesh : GmshMesh) (geometry : Geometry)
    (s : GmshSession) :
    (make_from_mesh_session mesh s).2.initialized = false ∧
    (mesh_geometry_session geometry s).2.initialized = false ∧
    (write_session s).initialized = false ∧
    (render_session s).initialized = false ∧
    (render_session s).fltkInitialized = false :=
  ⟨rfl, rfl, rfl, rfl, rfl⟩

/-- C9 witness: a previously-initialized session is finalized by a build on
the single-sphere mesh, and by a failing mesh-generation run on a non-solid
geometry. -/
theorem C9_witness :
    (make_from_mesh_session exMesh1 ⟨true, true⟩).2.initialized = false ∧
    (mesh_geometry_session ⟨[⟨2, 1⟩], ["iron"]⟩ ⟨true, true⟩).2.initialized = false :=
  ⟨(C9_session_always_released exMesh1 ⟨[⟨2, 1⟩], ["iron"]⟩ ⟨true, true⟩).1,
   (C9_session_always_released exMesh1 ⟨[⟨2, 1⟩], ["iron"]⟩ ⟨true, true⟩).2.1⟩

/-- C10: constructing a Geometry directly, or via import_step/import_brep,
raises ValueError exactly when the number of material names differs from the
number of solids; when the lengths agree the construction succeeds and
stores the given solids and material names in order. -/
theorem C10_geometry_material_length (solids : List Solid)
    (material_names : List String) :
    (material_names.length = solids.length →
      Geometry.init solids material_names = .ok ⟨solids, material_names⟩ ∧
      Geometry.import_step solids material_names = .ok ⟨solids, material_names⟩ ∧
      Geometry.import_brep solids material_names = .ok ⟨solids, material_names⟩) ∧
    (material_names.length ≠ solids.length →
      (∃ msg, Geometry.init solids material_names = .error (.valueError msg)) ∧
      (∃ msg, Geometry.import_step solids material_names = .error (.valueError msg)) ∧
      (∃ msg, Geometry.import_brep solids material_names = .error (.valueError msg))) := by
  constructor
  · intro heq
    have h1 : Geometry.init solids material_names = .ok ⟨solids, material_names⟩ := by
      unfold Geometry.init
      rw [if_neg (by omega)]
    refine ⟨h1, ?_, ?_⟩
    · unfold Geometry.import_step
      rw [if_neg (by omega)]
      exact h1
    · unfold Geometry.import_brep
      rw [if_neg (by omega)]
      exact h1
  · intro hne
    have h1 : Geometry.init solids material_names =
        .error (.valueError "Length of material_names must match length of solids.") := by
      unfold Geometry.init
      rw [if_pos hne]
    have h2 : Geometry.import_step solids material_names =
        .error (.valueError
          "Length of material_names must match number of solids in file.") := by
      unfold Geometry.import_step
      rw [if_pos hne]
    have h3 : Geometry.import_brep solids material_names =
        .error (.valueError
          "Length of material_names must match number of solids in file.") := by
      unfold Geometry.import_brep
      rw [if_pos hne]
    exact ⟨⟨_, h1⟩, ⟨_, h2⟩, ⟨_, h3⟩⟩

/-- C10 witness: one solid with one material name succeeds; zero solids with
one material name fail. -/
theorem C10_witness :
    Geometry.init [⟨3, 1⟩] ["iron"] = .ok ⟨[⟨3, 1⟩], ["iron"]⟩ ∧
    (∃ msg, Geometry.import_step [] ["iron"] = .error (.valueError msg)) :=
  ⟨((C10_geometry_material_length [⟨3, 1⟩] ["iron"]).1 (by decide)).1,
   ((C10_geometry_material_length [] ["iron"]).2 (by decide)).2.1⟩
